import Mathlib

/-!
# Verification of `materialXBox` (`src/lib/python/mtlx_input.py`)

Shallow embedding of the MaterialX-to-Gaffer translation node `MtlXInput`.
The host scene-graph engine (Gaffer) and the MaterialX document object model
are external collaborators; following the source, we model:

* the parsed MaterialX document (materials, shader references, looks,
  material assigns, visibility statements) as plain inductive data;
* the generated children of the host node (`Gaffer.Box` material boxes,
  `GafferArnold.ArnoldAttributes` nodes, `GafferScene.PathFilter` nodes)
  and the scene-plug connections the code makes between them;
* the string helpers the code relies on (`fix_str`, Python `str.replace`
  and `str.split`) with Python semantics;
* the plug-shape dispatch of `set_input_value` / `set_input_connection`,
  with the fallible Gaffer primitives (`setValue` / `setInput`) passed in
  as an oracle so that the `try/except` structure is captured exactly.

Internal contents of a material box (the Arnold shader nodes, BoxIn/BoxOut
adapters and per-reference shader assignments) are not observed by any of
the properties under scrutiny; they are noted in comments where the source
creates them but are not carried in the state.
-/

namespace MtlXBox

/-! ## Python string primitives -/

/-- One-position prefix test on character lists (used to model Python
`str.replace` scanning). -/
def prefixMatch : List Char → List Char → Bool
  | [], _ => true
  | _ :: _, [] => false
  | p :: ps, c :: cs => p = c && prefixMatch ps cs

/-- Python `s.replace(pat, rep)` scanning, one character at a time: in
state `0` the scanner tests for an occurrence of `pat` at the current
position; on a hit it emits `rep` and enters the skip state consuming the
remaining `pat.length - 1` matched characters, realising the leftmost,
non-overlapping replacement of every occurrence. -/
def replaceAux (pat rep : List Char) : Nat → List Char → List Char
  | _, [] => []
  | 0, c :: cs =>
      if pat ≠ [] ∧ prefixMatch pat (c :: cs) then
        rep ++ replaceAux pat rep (pat.length - 1) cs
      else
        c :: replaceAux pat rep 0 cs
  | k + 1, _ :: cs => replaceAux pat rep k cs

/-- Python `s.replace(pat, rep)` on character lists: leftmost,
non-overlapping replacement of every occurrence of `pat`.  For the empty
pattern Python inserts `rep` at every position; the only call sites in the
source use `rep = ""`, for which Python's empty-pattern behaviour is also
the identity, as here. -/
def replaceList (pat rep : List Char) (s : List Char) : List Char :=
  replaceAux pat rep 0 s

/-- Python `s.replace(pat, rep)` on strings. -/
def pyReplace (s pat rep : String) : String :=
  String.mk (replaceList pat.data rep.data s.data)

/-- Python `s.split(sep)` for a single-character separator, on character
lists.  Never returns the empty list (Python: `"".split("/") == [""]`). -/
def splitChars (sep : Char) : List Char → List (List Char)
  | [] => [[]]
  | c :: cs =>
      if c = sep then [] :: splitChars sep cs
      else
        match splitChars sep cs with
        | [] => [[c]]
        | g :: gs => (c :: g) :: gs

/-- `fix_str` (source lines 19-30): replaces each of the characters `:` and
`/` with `_`, by two successive Python `str.replace` calls. -/
def fix_str (name : String) : String :=
  String.mk (replaceList ['/'] ['_'] (replaceList [':'] ['_'] name.data))

/-! ## The MaterialX document model

The document object model (`MaterialX as mx`) is an external library; the
code reads it through `getMaterials`, `getShaderRefs`, `getName`,
`getNodeString`, `getAttribute("context")`, `getLooks`,
`getMaterialAssigns`, `getReferencedMaterial`, `getGeom`,
`getVisibilities`, `getVisibilityType`, `getVisible`.  We model exactly
these accessors as record fields. -/

/-- A shader reference of a material (`mx.ShaderRef`).  Bind inputs and the
upstream node graph only feed the (unmodelled) internals of a material box;
the fields the box-level build observes are kept. -/
structure ShaderRef where
  name : String
  nodeString : String
  context : String
deriving DecidableEq, Repr

/-- A material (`mx.Material`). -/
structure Material where
  name : String
  shaderRefs : List ShaderRef
deriving DecidableEq, Repr

/-- A material assignment inside a look (`mx.MaterialAssign`);
`materialName` stands for `getReferencedMaterial().getName()`. -/
structure MaterialAssign where
  materialName : String
  geom : String
deriving DecidableEq, Repr

/-- A visibility statement inside a look (`mx.Visibility`). -/
structure Visibility where
  geom : String
  visType : String
  visible : Bool
deriving DecidableEq, Repr

/-- A look (`mx.Look`). -/
structure Look where
  name : String
  materialAssigns : List MaterialAssign
  visibilities : List Visibility
deriving DecidableEq, Repr

/-- A parsed MaterialX document (`mx.Document`). -/
structure Document where
  materials : List Material
  looks : List Look
deriving DecidableEq, Repr

/-- `mx.createDocument()`: a fresh, empty document. -/
def emptyDocument : Document := ⟨[], []⟩

/-! ## Generated graph entities and host-node state -/

/-- A scene-stream source a plug can be connected to: the host node's own
`in` plug, a material box's `out` plug (identified by the index of the
material that produced the box), or an `ArnoldAttributes` node's `out`
plug (identified by its position among the attribute children). -/
inductive Src
  | hostIn : Src
  | boxOut : Nat → Src
  | attrOut : Nat → Src
deriving DecidableEq, Repr

/-- A generated `Gaffer.Box` child of the host node.  `matIdx` is the
document-order index of the material that produced it (object identity);
`name` is its sanitized name; `pathFilterPaths` models the `paths` value of
the box's first `PathFilter` child (the one `setup_assignments` addresses
as `mat["PathFilter"]`); `boxIn` is what the box's promoted `in` plug is
connected to, if anything. -/
structure BoxChild where
  matIdx : Nat
  name : String
  pathFilterPaths : List String
  boxIn : Option Src
deriving DecidableEq, Repr

/-- A generated `GafferArnold.ArnoldAttributes` child.  `inSrc` is the
connection of its `in` plug; `settings` records the visibility attributes
set on it: an entry `(a, v)` means `attributes[a]["enabled"]` was set to
`True` and `attributes[a]["value"]` to `v` (the code always sets the two
together); later writes to the same attribute overwrite earlier ones. -/
structure AttrChild where
  inSrc : Src
  settings : List (String × Bool)
deriving DecidableEq, Repr

/-- A generated `GafferScene.PathFilter` child of the host node itself
(these come only from `setup_attributes`; the per-box filters live inside
the boxes). -/
structure FilterChild where
  paths : List String
deriving DecidableEq, Repr

/-- The mutable state of one `MtlXInput` node instance: its plain plug
values, the two instance attributes `status` / `mtlx_doc`, the generated
children (kept per category, which is how the code always observes them:
`material_list`, `attribute_list`, `path_filter_list`), the connection of
the host's `out` plug, and the look presets registered in the metadata. -/
structure NodeState where
  status : String
  mtlx_doc : Option Document
  mtlXPath : String
  resolved : String
  mtlXLook : Nat
  applyMaterials : Bool
  applyAssignments : Bool
  applyAttributes : Bool
  outSrc : Src
  boxes : List BoxChild
  attrs : List AttrChild
  filters : List FilterChild
  presets : List (String × Nat)
deriving DecidableEq, Repr

/-- The state established by `MtlXInput.__init__` (source lines 66-92):
empty status, no document, default plug values, `out` set to pass the `in`
plug through, no generated children. -/
def initial_state : NodeState :=
  { status := ""
    mtlx_doc := none
    mtlXPath := ""
    resolved := ""
    mtlXLook := 0
    applyMaterials := true
    applyAssignments := true
    applyAttributes := true
    outSrc := Src.hostIn
    boxes := []
    attrs := []
    filters := []
    presets := [] }

/-! ## Plug shapes and the type-aware binding of `ConnectionResolver` -/

/-- The run-time plug classes `set_input_value` / `set_input_connection`
discriminate on via `isInstanceOf`.  The five named Gaffer plug classes are
pairwise unrelated in the type hierarchy, so an enumeration is faithful;
`other` stands for any other plug class. -/
inductive PlugShape
  | float
  | int
  | color3
  | color4
  | vector3
  | other
deriving DecidableEq, Repr

/-- `isInstanceOf(Gaffer.FloatPlug) or isInstanceOf(Gaffer.IntPlug)`. -/
def PlugShape.scalar : PlugShape → Bool
  | .float => true
  | .int => true
  | _ => false

/-- Every modelled plug satisfies `isInstanceOf(Gaffer.Plug)`, the
`assert` at the top of both static methods. -/
def plug_is_plug (_ : PlugShape) : Bool := true

/-- A single plug connection the code makes while resolving one
input/output pair: `(some i, some o)` connects input channel `i` to output
channel `o`, `(some i, none)` connects input channel `i` to the whole
output plug, `(none, some o)` the whole input to output channel `o`, and
`(none, none)` is the direct whole-plug connection.  Channel `k` is the
`k`-th entry of `plug.keys()` (`r,g,b[,a]` or `x,y,z`). -/
abbrev ConnStep := Option Nat × Option Nat

/-- The sequence of connection attempts `set_input_connection` (source
lines 548-589) performs for a given pair of plug shapes, branch by branch:

1. scalar output into `Color3f`/`Color4f` input: first input channel only;
2. scalar input from `Color3f`/`Color4f` output: first output channel only;
3. `Color4f ← Color3f`, `Color3f ← Color4f`, `Color4f ← V3f`: first three
   channels pairwise;
4. scalar output into `V3f` input: first input channel only;
5. scalar input from `V3f` output: first output channel only;
6. anything else: one direct whole-plug connection. -/
def connection_plan (input_plug output_plug : PlugShape) : List ConnStep :=
  if output_plug.scalar ∧ (input_plug = .color3 ∨ input_plug = .color4) then
    [(some 0, none)]
  else if input_plug.scalar ∧ (output_plug = .color3 ∨ output_plug = .color4) then
    [(none, some 0)]
  else if (input_plug = .color4 ∧ output_plug = .color3) ∨
      (input_plug = .color3 ∧ output_plug = .color4) ∨
      (input_plug = .color4 ∧ output_plug = .vector3) then
    [(some 0, some 0), (some 1, some 1), (some 2, some 2)]
  else if output_plug.scalar ∧ input_plug = .vector3 then
    [(some 0, none)]
  else if input_plug.scalar ∧ output_plug = .vector3 then
    [(none, some 0)]
  else
    [(none, none)]

/-- The value-shape dispatch of `set_input_value` (source lines 521-532):
which constructor the value is coerced through before `setValue`. -/
inductive SetAttempt
  | asColor3
  | asColor4
  | asV3
  | direct
deriving DecidableEq, Repr

/-- Branch selection of `set_input_value`, on the input plug's class. -/
def value_dispatch (input_plug : PlugShape) : SetAttempt :=
  if input_plug = .color3 then .asColor3
  else if input_plug = .color4 then .asColor4
  else if input_plug = .vector3 then .asV3
  else .direct

/-- Outcome of one `set_input_value` / `set_input_connection` call: the
binding was applied, or the attempt failed, was logged as a warning and
skipped. -/
inductive SetOutcome
  | applied
  | warnedSkip (msg : String)
deriving DecidableEq, Repr

/-- `set_input_value` (source lines 511-535).  The Gaffer primitive
(`setValue`, including the indexing of the incoming value) is the oracle
`prim`, which may fail with any exception; the `assert` sits outside the
`try`, everything else inside, and the `except Exception` clause converts
any failure into a logged warning.  The outer `Except` is raising out of
the function. -/
def set_input_value_model (prim : SetAttempt → Except String Unit)
    (input_plug : PlugShape) : Except String SetOutcome :=
  if plug_is_plug input_plug = false then
    Except.error "AssertionError"
  else
    match prim (value_dispatch input_plug) with
    | Except.ok _ => Except.ok SetOutcome.applied
    | Except.error e => Except.ok (SetOutcome.warnedSkip e)

/-- Runs the connection attempts of one branch in order, stopping at the
first primitive failure (as the raised exception aborts the `try` body). -/
def runPlan (prim : ConnStep → Except String Unit) :
    List ConnStep → Except String Unit
  | [] => Except.ok ()
  | s :: rest =>
      match prim s with
      | Except.ok _ => runPlan prim rest
      | Except.error e => Except.error e

/-- `set_input_connection` (source lines 537-592).  The Gaffer `setInput`
primitive is the oracle `prim`; both asserts sit outside the `try`, the
branch dispatch and all `setInput` calls inside, and `except Exception`
turns any failure into a logged warning. -/
def set_input_connection_model (prim : ConnStep → Except String Unit)
    (input_plug output_plug : PlugShape) : Except String SetOutcome :=
  if plug_is_plug input_plug = false ∨ plug_is_plug output_plug = false then
    Except.error "AssertionError"
  else
    match runPlan prim (connection_plan input_plug output_plug) with
    | Except.ok _ => Except.ok SetOutcome.applied
    | Except.error e => Except.ok (SetOutcome.warnedSkip e)

/-! ## `setup_materials` (source lines 214-369)

Only the host-level effects are carried: box children, their chaining
connections and the host `out` connection.  Per shader reference the code
also creates an `ArnoldShader`, a `ShaderAssignment`, a per-box
`PathFilter` and BoxIn/BoxOut adapters inside the box, binds literal bind
inputs via `set_input_value`, creates deduplicated upstream graph-node
shaders, and in a second pass wires connections via
`set_input_connection`; those effects happen strictly inside the material
boxes.  The second pass, however, begins each material's iteration with an
unguarded host-level child lookup that can raise; it is modelled by
`connections_pass` after the state-effect model. -/

/-- The loop body state while one material's shader references are
processed: the node state, the material box under construction (a Python
local until the first `self.addChild(material_box)`), and whether that
`addChild` has happened yet (after which the box is the last entry of
`st.boxes` and `addChild`-ing it again is a no-op). -/
structure MatPhase where
  st : NodeState
  box : BoxChild
  added : Bool
deriving DecidableEq, Repr

/-- `material_list[0]["in"].setInput(self["in"])`: connects the first
box child's `in` plug to the host's `in` plug. -/
def setFirstBoxIn : List BoxChild → List BoxChild
  | [] => []
  | b :: bs => { b with boxIn := some Src.hostIn } :: bs

/-- One iteration of the `for shader_ref in material.getShaderRefs()` loop
of `setup_materials`, restricted to host-level effects (source lines
267-276): with `material_list` taken before this iteration's `addChild`,
if it is non-empty then (a) if the current box is not its last entry,
connect the current box's `in` to that last box's `out`; (b) connect the
first box's `in` to the host's `in`; (c) connect the host's `out` to the
current box's `out`; finally `addChild(material_box)` (a no-op when the
box is already a child).  `i` is the current material's index. -/
def material_ref_step (i : Nat) (ph : MatPhase) : MatPhase :=
  let ml := ph.st.boxes
  let ph1 :=
    match ml.getLast? with
    | none => ph
    | some lastB =>
        let box :=
          if lastB.matIdx ≠ i then
            { ph.box with boxIn := some (Src.boxOut lastB.matIdx) }
          else ph.box
        { ph with
            box := box
            st := { ph.st with
                      boxes := setFirstBoxIn ph.st.boxes
                      outSrc := Src.boxOut i } }
  if ph1.added then ph1
  else
    { ph1 with
        st := { ph1.st with boxes := ph1.st.boxes ++ [ph1.box] }
        added := true }

/-- Processes all shader references of the material with index `i` and
sanitized box name `bname`; returns the node state after the loop.  The
`Gaffer.Box(material_name)` is created with no path-filter paths and an
unconnected `in` plug. -/
def setup_material_refs (i : Nat) (bname : String) (st : NodeState)
    (refs : List ShaderRef) : NodeState :=
  (refs.foldl (fun ph _ => material_ref_step i ph)
      { st := st
        box := { matIdx := i, name := bname, pathFilterPaths := [], boxIn := none }
        added := false }).st

/-- The `for material in self.mtlx_doc.getMaterials()` loop of
`setup_materials`, with `i` the enumeration index of the next material. -/
def materials_loop (i : Nat) (st : NodeState) : List Material → NodeState
  | [] => st
  | m :: rest =>
      materials_loop (i + 1) (setup_material_refs i (fix_str m.name) st m.shaderRefs) rest

/-- `setup_materials` (host-level state effects; the second,
connection-setting pass over the document changes no host-level state —
whether it returns normally is modelled by `connections_pass` below). -/
def setup_materials_model (doc : Document) (st : NodeState) : NodeState :=
  materials_loop 0 st doc.materials

/-- The second, connection-setting pass of `setup_materials` (source lines
324-367) at host level.  For every material of the document the code runs
`material_box = self[fix_str(material.getName())]` (line 327) with no
surrounding `try/except`; Gaffer's `__getitem__` raises `KeyError` when the
host has no child of that name, which propagates out of `setup_materials`.
When the lookup succeeds, the rest of the iteration addresses plugs and
shader children inside that box (created by the first pass from the same
shader references) and wires them via `set_input_connection`, changing no
host-level state. -/
def connections_pass (boxes : List BoxChild) :
    List Material → Except String Unit
  | [] => Except.ok ()
  | m :: rest =>
      if boxes.any (fun b => decide (b.name = fix_str m.name)) then
        connections_pass boxes rest
      else Except.error ("KeyError: " ++ fix_str m.name)

/-- `setup_materials` in full: the first pass builds the box children
(`setup_materials_model`), then the connection pass either completes or
raises the first failed child lookup's `KeyError` out of the method; the
host-level mutations made before the raise persist. -/
def setup_materials_run (doc : Document) (st : NodeState) :
    NodeState × Except String Unit :=
  let st1 := setup_materials_model doc st
  (st1, connections_pass st1.boxes doc.materials)

/-! ## `valid_mtlx` (source lines 148-159) and `clear_existing_data`
(source lines 201-212) -/

/-- The outcome of `mx.readFromXmlFile` on the current `mtlXPath`, the
external file-system interaction: either the parsed document, or an
`mx.ExceptionFileMissing` carrying a diagnostic message.  (Other parse
errors are not caught by `valid_mtlx` and are outside the modelled
behaviour.) -/
abbrev ReadResult := Except String Document

/-- `valid_mtlx`: assigns a fresh `mx.createDocument()` to `self.mtlx_doc`,
then reads the file into it; on success returns `True`, on
`ExceptionFileMissing` stores the message in `self.status` and returns
`None` (falsy, here `false`). -/
def valid_mtlx_model (st : NodeState) (read : ReadResult) : NodeState × Bool :=
  let st1 := { st with mtlx_doc := some emptyDocument }
  match read with
  | Except.ok doc => ({ st1 with mtlx_doc := some doc }, true)
  | Except.error err => ({ st1 with status := err }, false)

/-- `clear_existing_data`: removes every child of the three generated
categories (`Gaffer.Box`, `GafferArnold.ArnoldAttributes`,
`GafferScene.PathFilter`), one `removeChild` loop per category. -/
def clear_existing_data_model (st : NodeState) : NodeState :=
  { st with boxes := [], attrs := [], filters := [] }

/-! ## `setup_assignments` (source lines 371-421) -/

/-- `Gaffer.Metadata.registerPlugValue(self["mtlXLook"], "preset:" + name,
idx)`: registering again under the same key overwrites. -/
def setPreset (l : List (String × Nat)) (k : String) (v : Nat) :
    List (String × Nat) :=
  l.filter (fun p => ¬(p.1 = k)) ++ [(k, v)]

/-- The effect of one `MaterialAssign` of the active look on the box
children (source lines 400-419): for every box child whose name equals the
assign's sanitized referenced-material name, append
`geom.replace(geom.split("/")[-1], "")` to the box's path-filter paths.
(`paths.getValue()` is never `None` and Python `split` never returns an
empty list, so the two inner guards always pass; the `getLast?` match
keeps the latter guard visible.) -/
def assignBoxes (boxes : List BoxChild) (ma : MaterialAssign) : List BoxChild :=
  let aname := fix_str ma.materialName
  boxes.map (fun b =>
    if aname = b.name then
      match (splitChars '/' ma.geom.data).getLast? with
      | some seg =>
          { b with
              pathFilterPaths := b.pathFilterPaths ++
                [pyReplace ma.geom (String.mk seg) ""] }
      | none => b
    else b)

/-- One `MaterialAssign` iteration on the node state. -/
def assign_step (st : NodeState) (ma : MaterialAssign) : NodeState :=
  { st with boxes := assignBoxes st.boxes ma }

/-- The `for idx, look in enumerate(self.mtlx_doc.getLooks())` loop of
`setup_assignments`: every look's name is registered as a preset; for the
look whose index equals `look_idx`, every box's path-filter paths are
reset to `[]` and then each material assign appends its derived path. -/
def assign_looks_loop (look_idx idx : Nat) (st : NodeState) :
    List Look → NodeState
  | [] => st
  | look :: rest =>
      let st1 := { st with
        presets := setPreset st.presets ("preset:" ++ look.name) idx }
      let st2 :=
        if look_idx = idx then
          look.materialAssigns.foldl assign_step
            { st1 with
                boxes := st1.boxes.map (fun b => { b with pathFilterPaths := [] }) }
        else st1
      assign_looks_loop look_idx (idx + 1) st2 rest

/-- `setup_assignments(look_idx)`: sets the `mtlXLook` plug, loads the
document first if none is loaded (returning if that fails), then runs the
looks loop. -/
def setup_assignments_model (read : ReadResult) (look_idx : Nat)
    (st : NodeState) : NodeState :=
  let st0 := { st with mtlXLook := look_idx }
  match st0.mtlx_doc with
  | some doc => assign_looks_loop look_idx 0 st0 doc.looks
  | none =>
      match valid_mtlx_model st0 read with
      | (st1, true) =>
          match st1.mtlx_doc with
          | some doc => assign_looks_loop look_idx 0 st1 doc.looks
          | none => st1
      | (st1, false) => st1

/-! ## `setup_attributes` (source lines 423-509) -/

/-- The `ArnoldAttributes` attribute name a visibility type maps to
(source lines 474-504); an unrecognized type sets nothing. -/
def visibilityAttrName : String → Option String
  | "camera" => some "cameraVisibility"
  | "shadow" => some "shadowVisibility"
  | "diffuse_transmit" => some "diffuseTransmissionVisibility"
  | "specular_transmit" => some "specularTransmissionVisibility"
  | "volume" => some "volumeVisibility"
  | "diffuse_reflect" => some "diffuseReflectionVisibility"
  | "specular_reflect" => some "specularReflectionVisibility"
  | "subsurface" => some "subsurfaceVisibility"
  | _ => none

/-- Overwriting write of one visibility attribute on an attribute node's
settings (plug semantics: the latest `setValue` wins). -/
def setAttr (l : List (String × Bool)) (k : String) (v : Bool) :
    List (String × Bool) :=
  l.filter (fun p => ¬(p.1 = k)) ++ [(k, v)]

/-- Applies one visibility statement's attribute writes to a list of
attribute children: the writes target `attribute_assignment`, the most
recently created node, i.e. the last element. -/
def applyVisAttrs (attrs : List AttrChild) (v : Visibility) :
    List AttrChild :=
  match visibilityAttrName v.visType with
  | none => attrs
  | some a =>
      match attrs.getLast? with
      | none => attrs
      | some lastA =>
          attrs.dropLast ++ [{ lastA with settings := setAttr lastA.settings a v.visible }]

/-- The chain source for a newly created `ArnoldAttributes` node (source
lines 453-460): the previous attribute node's `out` if any, else the last
material box's `out` if any, else the host's `in`. -/
def attrChainSrc (attrs : List AttrChild) (boxes : List BoxChild) : Src :=
  match attrs.getLast? with
  | some _ => Src.attrOut (attrs.length - 1)
  | none =>
      match boxes.getLast? with
      | some b => Src.boxOut b.matIdx
      | none => Src.hostIn

/-- One iteration of the `for idx, visibility in enumerate(...)` loop of
`setup_attributes`: at every index divisible by 8 a new
`ArnoldAttributes` + `PathFilter` pair is created and chained, with the
filter's paths set to this statement's single geometry path; then the
statement's visibility attribute is set on the current (= last) attribute
node. -/
def visibility_step (st : NodeState) (idx : Nat) (v : Visibility) : NodeState :=
  let st1 :=
    if idx % 8 = 0 then
      { st with
          attrs := st.attrs ++ [{ inSrc := attrChainSrc st.attrs st.boxes, settings := [] }]
          filters := st.filters ++ [{ paths := [v.geom] }] }
    else st
  { st1 with attrs := applyVisAttrs st1.attrs v }

/-- The enumerated visibilities loop, `idx` starting at 0. -/
def visibilities_loop (st : NodeState) (idx : Nat) :
    List Visibility → NodeState
  | [] => st
  | v :: rest => visibilities_loop (visibility_step st idx v) (idx + 1) rest

/-- The `for idx, look in enumerate(...)` loop of `setup_attributes`: only
the look whose index equals `look_idx` is processed; after its visibility
loop, if at least one visibility was seen (`attribute_assignment is not
None`) the host's `out` is connected to the last attribute node's `out`. -/
def attr_looks_loop (look_idx idx : Nat) (st : NodeState) :
    List Look → NodeState
  | [] => st
  | look :: rest =>
      let st1 :=
        if look_idx = idx then
          let st2 := visibilities_loop st 0 look.visibilities
          if look.visibilities ≠ [] then
            { st2 with outSrc := Src.attrOut (st2.attrs.length - 1) }
          else st2
        else st
      attr_looks_loop look_idx (idx + 1) st1 rest

/-- `setup_attributes(look_idx)`: sets the `mtlXLook` plug, loads the
document first if none is loaded (returning if that fails), then runs the
looks loop. -/
def setup_attributes_model (read : ReadResult) (look_idx : Nat)
    (st : NodeState) : NodeState :=
  let st0 := { st with mtlXLook := look_idx }
  match st0.mtlx_doc with
  | some doc => attr_looks_loop look_idx 0 st0 doc.looks
  | none =>
      match valid_mtlx_model st0 read with
      | (st1, true) =>
          match st1.mtlx_doc with
          | some doc => attr_looks_loop look_idx 0 st1 doc.looks
          | none => st1
      | (st1, false) => st1

/-! ## `load_mtlx` (source lines 161-178), `hash` (source lines 94-114)
and the `plug_set` callback (source lines 134-146) -/

/-- The success status string; the elapsed wall-clock seconds the source
appends are outside the model. -/
def loadedStatus (n : Nat) : String :=
  toString n ++ " Materials loaded"

/-- `load_mtlx`: runs the three build phases, each gated by its toggle
plug, then sets the status from the number of material-box children.
`load_mtlx` is only invoked after `valid_mtlx` succeeded, so the document
is present; on no document the model is the identity. -/
def load_mtlx_model (read : ReadResult) (st : NodeState) : NodeState :=
  match st.mtlx_doc with
  | none => st
  | some doc =>
      let st1 := if st.applyMaterials then setup_materials_model doc st else st
      let st2 := if st1.applyAssignments then setup_assignments_model read 0 st1 else st1
      let st3 := if st2.applyAttributes then setup_attributes_model read 0 st2 else st2
      { st3 with status := loadedStatus st3.boxes.length }

/-- The teardown-plus-build sequence the `hash` method performs when the
path changed and the document is valid: `clear_existing_data` then
`load_mtlx`. -/
def rebuild_model (read : ReadResult) (st : NodeState) : NodeState :=
  load_mtlx_model read (clear_existing_data_model st)

/-- `hash`: when the `mtlXPath` plug's hash differs from the `resolved`
plug's hash (modelled as value inequality), validate the file; on success
tear down and rebuild, on failure reconnect the host's `out` to its `in`
(pass-through); in both cases record the path as resolved.  The trailing
`h.append(...)` calls only feed the host's hashing and have no state
effect. -/
def hash_model (read : ReadResult) (st : NodeState) : NodeState :=
  if st.mtlXPath = st.resolved then st
  else
    let vr := valid_mtlx_model st read
    let st2 :=
      if vr.2 then rebuild_model read vr.1
      else { vr.1 with outSrc := Src.hostIn }
    { st2 with resolved := st2.mtlXPath }

/-- The `plug_set` signal handler, invoked by the host after a plug's
value changed: a `refresh` change clears the `resolved` plug (forcing the
next `hash` to rebuild); an `mtlXLook` change re-runs `setup_assignments`
with the new look index (already stored in the plug). -/
def plug_set_model (read : ReadResult) (plugName : String)
    (st : NodeState) : NodeState :=
  if plugName = "refresh" then { st with resolved := "" }
  else if plugName = "mtlXLook" then
    setup_assignments_model read st.mtlXLook st
  else st

/-! ## Expected-shape definitions

The following definitions express, directly from the specification's
wording, the shapes the generated graph is claimed (or, where the claim
fails, amended) to take; the theorems below compare the source-translated
models against them. -/

/-- The materials that own at least one shader reference, paired with
their document-order indices starting from `i`. -/
def withRefs : List Material → Nat → List (Nat × Material)
  | [], _ => []
  | m :: rest, i =>
      if m.shaderRefs = [] then withRefs rest (i + 1)
      else (i, m) :: withRefs rest (i + 1)

/-- The total number of shader references across all materials. -/
def refCount (ms : List Material) : Nat :=
  (ms.map (fun m => m.shaderRefs.length)).sum

/-- Index of the last indexed material, `0` when there is none. -/
def lastPairIdx (pairs : List (Nat × Material)) : Nat :=
  match pairs.getLast? with
  | some p => p.1
  | none => 0

/-- The chained non-first boxes: each box's `in` plug is connected to the
previous box's `out` plug, `prev` being the index before the first one. -/
def chainFrom (prev : Nat) : List (Nat × Material) → List BoxChild
  | [] => []
  | (i, m) :: rest =>
      { matIdx := i, name := fix_str m.name, pathFilterPaths := [],
        boxIn := some (Src.boxOut prev) } :: chainFrom i rest

/-- The expected box children for the indexed materials: boxes in document
order, chained; the first box's `in` is connected to the host's `in`
exactly when `many` holds (amended: when the document carries at least two
shader references in total). -/
def expectedBoxes (many : Bool) : List (Nat × Material) → List BoxChild
  | [] => []
  | (i, m) :: rest =>
      { matIdx := i, name := fix_str m.name, pathFilterPaths := [],
        boxIn := if many then some Src.hostIn else none } :: chainFrom i rest

/-- The visibility-attribute writes a list of visibility statements
accumulates on one attribute node's settings. -/
def settingsFold (s : List (String × Bool)) (vs : List Visibility) :
    List (String × Bool) :=
  vs.foldl (fun acc v =>
    match visibilityAttrName v.visType with
    | some a => setAttr acc a v.visible
    | none => acc) s

/-- The expected `ArnoldAttributes` children appended for a visibility
list: one node per batch of 8 consecutive statements, chained onto the
previous attribute node / last box / host input, carrying the batch's
accumulated visibility settings. -/
def expectedAttrs (boxes : List BoxChild) (cur : List AttrChild) :
    List Visibility → List AttrChild
  | [] => []
  | v :: rest =>
      let node : AttrChild :=
        { inSrc := attrChainSrc cur boxes
          settings := settingsFold [] (v :: rest.take 7) }
      node :: expectedAttrs boxes (cur ++ [node]) (rest.drop 7)
termination_by vs => vs.length
decreasing_by
  simp only [List.length_cons, List.length_drop]
  omega

/-- The expected `PathFilter` children appended for a visibility list: one
filter per batch of 8, holding only the batch-starting statement's single
geometry path. -/
def expectedFilters : List Visibility → List FilterChild
  | [] => []
  | v :: rest => { paths := [v.geom] } :: expectedFilters (rest.drop 7)
termination_by vs => vs.length
decreasing_by
  simp only [List.length_cons, List.length_drop]
  omega

/-- The path `setup_assignments` derives from an assign's geometry path:
Python `geom.replace(geom.split("/")[-1], "")`, i.e. the geometry path
with every occurrence of its final `/`-separated segment removed. -/
def derivedPath (ma : MaterialAssign) : String :=
  pyReplace ma.geom (String.mk ((splitChars '/' ma.geom.data).getLastD [])) ""

/-- The identity of a box child apart from its path-filter paths: the
generated box, its name and its chaining connection.  A look change may
rewrite a box's filter paths but never this shape. -/
def boxShape (b : BoxChild) : Nat × String × Option Src :=
  (b.matIdx, b.name, b.boxIn)

/-! ## Concrete documents and states used by witnesses and counterexamples -/

/-- C1 counterexample input: two materials, the second without shader
references. -/
def cxDocC1 : Document :=
  ⟨[⟨"m0", [⟨"s0", "standard_surface", ""⟩]⟩, ⟨"m1", []⟩], []⟩

/-- C1 counterexample state: a fresh node with `cxDocC1` loaded. -/
def cxStC1 : NodeState := { initial_state with mtlx_doc := some cxDocC1 }

/-- C2 counterexample input: a single material with no shader references
(and a sanitized name shared with no reference-owning material). -/
def cxDocC2 : Document := ⟨[⟨"m0", []⟩], []⟩

/-- C2 counterexample state: a fresh node with `cxDocC2` loaded. -/
def cxStC2 : NodeState := { initial_state with mtlx_doc := some cxDocC2 }

/-- C1 witness input: two materials with one shader reference each. -/
def wDocC1 : Document :=
  ⟨[⟨"m0", [⟨"s0", "standard_surface", ""⟩]⟩, ⟨"m1", [⟨"s1", "lambert", ""⟩]⟩], []⟩

/-- C3 witness input: one look with ten visibility statements. -/
def wDocC3 : Document :=
  ⟨[], [⟨"lk", [],
    [⟨"/g0", "camera", true⟩, ⟨"/g1", "shadow", false⟩,
     ⟨"/g2", "volume", true⟩, ⟨"/g3", "camera", false⟩,
     ⟨"/g4", "diffuse_reflect", true⟩, ⟨"/g5", "specular_reflect", false⟩,
     ⟨"/g6", "diffuse_transmit", true⟩, ⟨"/g7", "specular_transmit", false⟩,
     ⟨"/g8", "subsurface", true⟩, ⟨"/g9", "camera", true⟩]⟩]⟩

/-- C3 witness state: a fresh node with `wDocC3` loaded. -/
def wStC3 : NodeState := { initial_state with mtlx_doc := some wDocC3 }

/-- C4 counterexample input: one assign whose geometry path repeats its
final segment. -/
def cxDocC4 : Document :=
  ⟨[⟨"m", [⟨"s", "standard_surface", ""⟩]⟩], [⟨"beauty", [⟨"m", "/a/a"⟩], []⟩]⟩

/-- C4 counterexample state: the node after building `cxDocC4`'s
materials (one box named `m`). -/
def cxStC4 : NodeState :=
  { initial_state with
      mtlx_doc := some cxDocC4
      boxes := [⟨0, "m", [], none⟩] }

/-- C4 witness input: one assign with geometry path `/a/b/c`. -/
def wDocC4 : Document :=
  ⟨[⟨"m", [⟨"s", "standard_surface", ""⟩]⟩], [⟨"beauty", [⟨"m", "/a/b/c"⟩], []⟩]⟩

/-- C4 witness state. -/
def wStC4 : NodeState :=
  { initial_state with
      mtlx_doc := some wDocC4
      boxes := [⟨0, "m", [], none⟩] }

/-- C7 witness state: a fresh node whose path plug was just set. -/
def wStC7 : NodeState := { initial_state with mtlXPath := "/nonexistent.mtlx" }

/-- C9 counterexample input: look 0 has no visibilities, look 1 has one. -/
def cxDocC9 : Document :=
  ⟨[], [⟨"l0", [], []⟩, ⟨"l1", [], [⟨"/geo", "camera", true⟩]⟩]⟩

/-- C9 counterexample state: the node as built for look 0 (no attribute
nodes), after the user set the `mtlXLook` plug to 1. -/
def cxStC9 : NodeState :=
  { initial_state with mtlx_doc := some cxDocC9, mtlXLook := 1 }

/-! # Theorems -/

/-- **C5.** For `set_input_connection`: whenever the output plug is scalar
(float or int) and the input plug is a 3- or 4-component color or a
3-vector, the output is connected to the input's first component channel
only (and the remaining channels are left unconnected, there being no
further connection step); symmetrically, whenever the input plug is scalar
and the output plug is such a composite, the input is connected to the
output's first component channel only. -/
theorem claim_C5_confirmed :
    ∀ input_plug output_plug : PlugShape,
      (output_plug.scalar = true →
        (input_plug = PlugShape.color3 ∨ input_plug = PlugShape.color4 ∨
          input_plug = PlugShape.vector3) →
        connection_plan input_plug output_plug = [(some 0, none)]) ∧
      (input_plug.scalar = true →
        (output_plug = PlugShape.color3 ∨ output_plug = PlugShape.color4 ∨
          output_plug = PlugShape.vector3) →
        connection_plan input_plug output_plug = [(none, some 0)]) := by
  intro input_plug output_plug
  cases input_plug <;> cases output_plug <;> exact ⟨by decide, by decide⟩

/-- Witness for C5: a float output into a `Color3f` input connects the
first input channel only; a float input from a `Color4f` output connects
the first output channel only. -/
theorem claim_C5_witness :
    connection_plan PlugShape.color3 PlugShape.float = [(some 0, none)] ∧
    connection_plan PlugShape.float PlugShape.color4 = [(none, some 0)] :=
  ⟨(claim_C5_confirmed PlugShape.color3 PlugShape.float).1 rfl (Or.inl rfl),
   (claim_C5_confirmed PlugShape.float PlugShape.color4).2 rfl (Or.inr (Or.inl rfl))⟩

/-- **C6, counterexample.** The claim states that a 4-component color and a
3-vector plug are connected channel-pairwise *in either direction*; but for
a `V3f` input fed from a `Color4f` output the code falls through every
branch to the direct whole-plug attempt, not the three pairwise channel
connections. -/
theorem claim_C6_counterexample :
    connection_plan PlugShape.vector3 PlugShape.color4 = [(none, none)] ∧
    connection_plan PlugShape.vector3 PlugShape.color4 ≠
      [(some 0, some 0), (some 1, some 1), (some 2, some 2)] := by
  exact ⟨by decide, by decide⟩

/-- **C6, amended.** Between 3- and 4-component color plugs (either
direction), and for a 4-component color *input* fed from a 3-vector
*output*, the first three component channels are connected pairwise in
order (any 4th channel left unconnected); the remaining direction — a
3-vector input fed from a 4-component color output — is not a handled
combination and falls through to the direct whole-plug attempt. -/
theorem claim_C6_amended :
    (∀ input_plug output_plug : PlugShape,
      ((input_plug = PlugShape.color4 ∧ output_plug = PlugShape.color3) ∨
       (input_plug = PlugShape.color3 ∧ output_plug = PlugShape.color4) ∨
       (input_plug = PlugShape.color4 ∧ output_plug = PlugShape.vector3)) →
      connection_plan input_plug output_plug =
        [(some 0, some 0), (some 1, some 1), (some 2, some 2)]) ∧
    connection_plan PlugShape.vector3 PlugShape.color4 = [(none, none)] := by
  constructor
  · intro input_plug output_plug h
    rcases h with ⟨h1, h2⟩ | ⟨h1, h2⟩ | ⟨h1, h2⟩ <;> subst h1 <;> subst h2 <;> decide
  · decide

/-- Witness for the amended C6: a `Color4f` input fed from a `Color3f`
output is connected on the first three channels pairwise. -/
theorem claim_C6_witness :
    connection_plan PlugShape.color4 PlugShape.color3 =
      [(some 0, some 0), (some 1, some 1), (some 2, some 2)] :=
  claim_C6_amended.1 PlugShape.color4 PlugShape.color3 (Or.inl ⟨rfl, rfl⟩)

/-! ### Characterization of the visibility loop (`setup_attributes`) -/

theorem visibility_step_not8 (st : NodeState) (idx : Nat) (v : Visibility)
    (h : ¬idx % 8 = 0) :
    visibility_step st idx v = { st with attrs := applyVisAttrs st.attrs v } := by
  simp [visibility_step, h]

theorem visibility_step_at8 (st : NodeState) (idx : Nat) (v : Visibility)
    (h : idx % 8 = 0) :
    visibility_step st idx v =
      { st with
          attrs := applyVisAttrs
            (st.attrs ++ [{ inSrc := attrChainSrc st.attrs st.boxes, settings := [] }]) v
          filters := st.filters ++ [{ paths := [v.geom] }] } := by
  simp [visibility_step, h]

theorem visibilities_loop_append (as : List Visibility) :
    ∀ (bs : List Visibility) (st : NodeState) (idx : Nat),
    visibilities_loop st idx (as ++ bs) =
      visibilities_loop (visibilities_loop st idx as) (idx + as.length) bs := by
  induction as with
  | nil => intro bs st idx; simp [visibilities_loop]
  | cons a as ih =>
      intro bs st idx
      have h1 : visibilities_loop st idx ((a :: as) ++ bs) =
          visibilities_loop (visibility_step st idx a) (idx + 1) (as ++ bs) := rfl
      have h2 : visibilities_loop st idx (a :: as) =
          visibilities_loop (visibility_step st idx a) (idx + 1) as := rfl
      have h3 : idx + (a :: as).length = (idx + 1) + as.length := by
        simp only [List.length_cons]
        omega
      rw [h1, h3, h2]
      exact ih bs (visibility_step st idx a) (idx + 1)

theorem visibilities_loop_skip (vs : List Visibility) :
    ∀ (st : NodeState) (idx : Nat),
    (∀ t, t < vs.length → ¬(idx + t) % 8 = 0) →
    visibilities_loop st idx vs =
      { st with attrs := vs.foldl applyVisAttrs st.attrs } := by
  induction vs with
  | nil => intro st idx _; simp [visibilities_loop]
  | cons v rest ih =>
      intro st idx h
      have h0 : ¬idx % 8 = 0 := by
        have := h 0 (by simp)
        simpa using this
      simp only [visibilities_loop]
      rw [visibility_step_not8 st idx v h0]
      rw [ih _ (idx + 1) (fun t ht => by
        have := h (t + 1) (by simpa using Nat.succ_lt_succ ht)
        omega)]
      rfl

theorem applyVisAttrs_concat (attrs : List AttrChild) (node : AttrChild)
    (v : Visibility) :
    applyVisAttrs (attrs ++ [node]) v =
      attrs ++ [{ node with settings :=
        match visibilityAttrName v.visType with
        | some a => setAttr node.settings a v.visible
        | none => node.settings }] := by
  unfold applyVisAttrs
  cases h : visibilityAttrName v.visType with
  | none => simp
  | some a => simp [List.getLast?_concat, List.dropLast_concat]

theorem foldl_applyVisAttrs_concat (vs : List Visibility) :
    ∀ (attrs : List AttrChild) (node : AttrChild),
    vs.foldl applyVisAttrs (attrs ++ [node]) =
      attrs ++ [{ node with settings := settingsFold node.settings vs }] := by
  induction vs with
  | nil => intro attrs node; simp [settingsFold]
  | cons v rest ih =>
      intro attrs node
      simp only [List.foldl_cons]
      rw [applyVisAttrs_concat, ih]
      simp [settingsFold]

theorem visibilities_loop_chunk (st : NodeState) (idx : Nat) (v : Visibility)
    (rest : List Visibility) (h : idx % 8 = 0) :
    visibilities_loop st idx (v :: rest) =
      visibilities_loop
        { st with
            attrs := st.attrs ++
              [{ inSrc := attrChainSrc st.attrs st.boxes
                 settings := settingsFold [] (v :: rest.take 7) }]
            filters := st.filters ++ [{ paths := [v.geom] }] }
        (idx + 8) (rest.drop 7) := by
  simp only [visibilities_loop]
  rw [visibility_step_at8 st idx v h]
  conv_lhs => rw [← List.take_append_drop 7 rest]
  rw [visibilities_loop_append]
  rw [visibilities_loop_skip (rest.take 7) _ (idx + 1) (fun t ht => by
    have h7 : (rest.take 7).length ≤ 7 := by
      simp [List.length_take]
    omega)]
  have hattrs :
      (rest.take 7).foldl applyVisAttrs
        (applyVisAttrs
          (st.attrs ++ [{ inSrc := attrChainSrc st.attrs st.boxes, settings := [] }]) v) =
      st.attrs ++
        [{ inSrc := attrChainSrc st.attrs st.boxes
           settings := settingsFold [] (v :: rest.take 7) }] := by
    rw [applyVisAttrs_concat, foldl_applyVisAttrs_concat]
    simp [settingsFold]
  rcases le_or_lt 7 rest.length with hle | hlt
  · have hlen : (rest.take 7).length = 7 := by
      simp [List.length_take, Nat.min_eq_left hle]
    rw [hlen]
    have hidx : idx + 1 + 7 = idx + 8 := by omega
    rw [hidx]
    congr 1
    · simp only [hattrs]
  · have hdrop : rest.drop 7 = [] := List.drop_eq_nil_of_le (Nat.le_of_lt hlt)
    rw [hdrop]
    simp only [visibilities_loop]
    simp only [hattrs]

theorem visibilities_loop_char_aux (n : Nat) :
    ∀ (vs : List Visibility), vs.length ≤ n →
    ∀ (st : NodeState) (idx : Nat), idx % 8 = 0 →
    visibilities_loop st idx vs =
      { st with
          attrs := st.attrs ++ expectedAttrs st.boxes st.attrs vs
          filters := st.filters ++ expectedFilters vs } := by
  induction n with
  | zero =>
      intro vs hvs st idx h
      have hnil : vs = [] := List.eq_nil_of_length_eq_zero (Nat.le_zero.mp hvs)
      subst hnil
      simp [visibilities_loop, expectedAttrs, expectedFilters]
  | succ n ih =>
      intro vs hvs st idx h
      cases vs with
      | nil => simp [visibilities_loop, expectedAttrs, expectedFilters]
      | cons v rest =>
          rw [visibilities_loop_chunk st idx v rest h]
          rw [ih (rest.drop 7)
            (by simp only [List.length_cons] at hvs; simp [List.length_drop]; omega)
            _ (idx + 8) (by omega)]
          simp only [expectedAttrs, expectedFilters]
          simp [List.append_assoc]

theorem visibilities_loop_char (vs : List Visibility) (st : NodeState) :
    visibilities_loop st 0 vs =
      { st with
          attrs := st.attrs ++ expectedAttrs st.boxes st.attrs vs
          filters := st.filters ++ expectedFilters vs } :=
  visibilities_loop_char_aux vs.length vs le_rfl st 0 rfl

theorem expectedAttrs_cons (boxes : List BoxChild) (cur : List AttrChild)
    (v : Visibility) (rest : List Visibility) :
    expectedAttrs boxes cur (v :: rest) =
      { inSrc := attrChainSrc cur boxes
        settings := settingsFold [] (v :: rest.take 7) } ::
      expectedAttrs boxes
        (cur ++ [{ inSrc := attrChainSrc cur boxes
                   settings := settingsFold [] (v :: rest.take 7) }])
        (rest.drop 7) := by
  rw [expectedAttrs]

theorem expectedFilters_cons (v : Visibility) (rest : List Visibility) :
    expectedFilters (v :: rest) =
      { paths := [v.geom] } :: expectedFilters (rest.drop 7) := by
  rw [expectedFilters]

theorem expectedAttrs_length_aux (n : Nat) :
    ∀ (vs : List Visibility), vs.length ≤ n →
    ∀ (boxes : List BoxChild) (cur : List AttrChild),
    (expectedAttrs boxes cur vs).length = (vs.length + 7) / 8 := by
  induction n with
  | zero =>
      intro vs hvs boxes cur
      have hnil : vs = [] := List.eq_nil_of_length_eq_zero (Nat.le_zero.mp hvs)
      subst hnil
      simp [expectedAttrs]
  | succ n ih =>
      intro vs hvs boxes cur
      cases vs with
      | nil => simp [expectedAttrs]
      | cons v rest =>
          simp only [List.length_cons] at hvs
          rw [expectedAttrs_cons, List.length_cons,
            ih (rest.drop 7) (by simp [List.length_drop]; omega)]
          simp only [List.length_drop, List.length_cons]
          omega

theorem expectedFilters_length_aux (n : Nat) :
    ∀ (vs : List Visibility), vs.length ≤ n →
    (expectedFilters vs).length = (vs.length + 7) / 8 := by
  induction n with
  | zero =>
      intro vs hvs
      have hnil : vs = [] := List.eq_nil_of_length_eq_zero (Nat.le_zero.mp hvs)
      subst hnil
      simp [expectedFilters]
  | succ n ih =>
      intro vs hvs
      cases vs with
      | nil => simp [expectedFilters]
      | cons v rest =>
          simp only [List.length_cons] at hvs
          rw [expectedFilters_cons, List.length_cons,
            ih (rest.drop 7) (by simp [List.length_drop]; omega)]
          simp only [List.length_drop, List.length_cons]
          omega

theorem expectedFilters_get_aux (n : Nat) :
    ∀ (vs : List Visibility), vs.length ≤ n → ∀ (k : Nat),
    (expectedFilters vs).get? k =
      (vs.get? (8 * k)).map (fun v => { paths := [v.geom] }) := by
  induction n with
  | zero =>
      intro vs hvs k
      have hnil : vs = [] := List.eq_nil_of_length_eq_zero (Nat.le_zero.mp hvs)
      subst hnil
      simp [expectedFilters]
  | succ n ih =>
      intro vs hvs k
      cases vs with
      | nil => simp [expectedFilters]
      | cons v rest =>
          simp only [List.length_cons] at hvs
          rw [expectedFilters_cons]
          cases k with
          | zero => simp
          | succ k' =>
              have h1 : (({ paths := [v.geom] } : FilterChild) ::
                  expectedFilters (rest.drop 7)).get? (k' + 1) =
                  (expectedFilters (rest.drop 7)).get? k' := rfl
              rw [h1, ih (rest.drop 7) (by simp [List.length_drop]; omega) k',
                List.get?_drop]
              have h2 : 8 * (k' + 1) = (8 * k' + 7) + 1 := by omega
              rw [h2]
              have h3 : (v :: rest).get? ((8 * k' + 7) + 1) =
                  rest.get? (8 * k' + 7) := rfl
              rw [h3]
              have h4 : 7 + 8 * k' = 8 * k' + 7 := by omega
              rw [h4]

theorem attr_looks_loop_lt (looks : List Look) :
    ∀ (look_idx idx : Nat) (st : NodeState), look_idx < idx →
    attr_looks_loop look_idx idx st looks = st := by
  induction looks with
  | nil => intro look_idx idx st _; simp [attr_looks_loop]
  | cons l rest ih =>
      intro look_idx idx st h
      simp only [attr_looks_loop]
      rw [if_neg (by omega)]
      exact ih look_idx (idx + 1) st (by omega)

theorem attr_looks_loop_get (looks : List Look) :
    ∀ (j : Nat) (look : Look) (idx : Nat) (st : NodeState),
    looks.get? j = some look →
    attr_looks_loop (idx + j) idx st looks =
      (if look.visibilities ≠ [] then
        { visibilities_loop st 0 look.visibilities with
            outSrc := Src.attrOut
              ((visibilities_loop st 0 look.visibilities).attrs.length - 1) }
      else visibilities_loop st 0 look.visibilities) := by
  induction looks with
  | nil => intro j look idx st h; simp at h
  | cons l rest ih =>
      intro j look idx st h
      cases j with
      | zero =>
          simp only [List.get?] at h
          injection h with h
          subst h
          simp only [attr_looks_loop]
          rw [if_pos (by omega : idx + 0 = idx)]
          exact attr_looks_loop_lt rest _ _ _ (by omega)
      | succ j' =>
          simp only [List.get?] at h
          simp only [attr_looks_loop]
          rw [if_neg (by omega : ¬idx + (j' + 1) = idx)]
          rw [show idx + (j' + 1) = (idx + 1) + j' by omega]
          exact ih j' look (idx + 1) st h

/-- **C3.** For the active look with `n` visibility statements,
`setup_attributes` creates exactly `⌈n/8⌉` `ArnoldAttributes` + `PathFilter`
pairs — a new pair at every 8th statement in document order — and each
created pair's `PathFilter` paths list contains exactly one path: the
geometry path of the batch-starting statement (statement `8*k` for the
`k`-th created pair), not a union of the batch's paths. -/
theorem claim_C3_confirmed (read : ReadResult) (look_idx : Nat) (st : NodeState)
    (doc : Document) (look : Look)
    (hdoc : st.mtlx_doc = some doc) (hlook : doc.looks.get? look_idx = some look) :
    (setup_attributes_model read look_idx st).attrs.length =
      st.attrs.length + (look.visibilities.length + 7) / 8 ∧
    (setup_attributes_model read look_idx st).filters.length =
      st.filters.length + (look.visibilities.length + 7) / 8 ∧
    ∀ k, ((setup_attributes_model read look_idx st).filters.drop
        st.filters.length).get? k =
      (look.visibilities.get? (8 * k)).map (fun v => { paths := [v.geom] }) := by
  have hmodel : setup_attributes_model read look_idx st =
      attr_looks_loop look_idx 0 { st with mtlXLook := look_idx } doc.looks := by
    unfold setup_attributes_model
    rw [hdoc]
  have hloop := attr_looks_loop_get doc.looks look_idx look 0
    { st with mtlXLook := look_idx } hlook
  rw [show (0 : Nat) + look_idx = look_idx by omega] at hloop
  have hA := expectedAttrs_length_aux look.visibilities.length look.visibilities
    le_rfl st.boxes st.attrs
  have hF := expectedFilters_length_aux look.visibilities.length look.visibilities
    le_rfl
  have hG := expectedFilters_get_aux look.visibilities.length look.visibilities
    le_rfl
  rw [hmodel, hloop]
  by_cases hvz : look.visibilities = []
  · rw [if_neg (by simp [hvz]), visibilities_loop_char]
    refine ⟨?_, ?_, ?_⟩
    · show (st.attrs ++ expectedAttrs st.boxes st.attrs look.visibilities).length =
        st.attrs.length + (look.visibilities.length + 7) / 8
      rw [List.length_append, hA]
    · show (st.filters ++ expectedFilters look.visibilities).length =
        st.filters.length + (look.visibilities.length + 7) / 8
      rw [List.length_append, hF]
    · intro k
      show ((st.filters ++ expectedFilters look.visibilities).drop
          st.filters.length).get? k = _
      rw [List.drop_left]
      exact hG k
  · rw [if_pos hvz, visibilities_loop_char]
    refine ⟨?_, ?_, ?_⟩
    · show (st.attrs ++ expectedAttrs st.boxes st.attrs look.visibilities).length =
        st.attrs.length + (look.visibilities.length + 7) / 8
      rw [List.length_append, hA]
    · show (st.filters ++ expectedFilters look.visibilities).length =
        st.filters.length + (look.visibilities.length + 7) / 8
      rw [List.length_append, hF]
    · intro k
      show ((st.filters ++ expectedFilters look.visibilities).drop
          st.filters.length).get? k = _
      rw [List.drop_left]
      exact hG k

/-- Witness for C3: ten visibility statements in the active look yield
exactly two pairs, and the second pair's filter paths equal only the 9th
statement's geometry path. -/
theorem claim_C3_witness :
    (setup_attributes_model (Except.error "e") 0 wStC3).attrs.length = 2 ∧
    (setup_attributes_model (Except.error "e") 0 wStC3).filters.length = 2 ∧
    ((setup_attributes_model (Except.error "e") 0 wStC3).filters.drop 0).get? 1 =
      some { paths := ["/g8"] } := by
  obtain ⟨h1, h2, h3⟩ :=
    claim_C3_confirmed (Except.error "e") 0 wStC3 wDocC3
      ⟨"lk", [],
        [⟨"/g0", "camera", true⟩, ⟨"/g1", "shadow", false⟩,
         ⟨"/g2", "volume", true⟩, ⟨"/g3", "camera", false⟩,
         ⟨"/g4", "diffuse_reflect", true⟩, ⟨"/g5", "specular_reflect", false⟩,
         ⟨"/g6", "diffuse_transmit", true⟩, ⟨"/g7", "specular_transmit", false⟩,
         ⟨"/g8", "subsurface", true⟩, ⟨"/g9", "camera", true⟩]⟩ rfl rfl
  refine ⟨h1.trans (by decide), h2.trans (by decide), ?_⟩
  have := h3 1
  exact this.trans (by decide)

/-! ### Characterization of the assignment phase (`setup_assignments`) -/

theorem splitChars_ne_nil (sep : Char) (l : List Char) : splitChars sep l ≠ [] := by
  induction l with
  | nil => simp [splitChars]
  | cons c cs ih =>
      simp only [splitChars]
      by_cases h : c = sep
      · simp [h]
      · simp only [h, if_false]
        cases hs : splitChars sep cs <;> simp

theorem assignBoxes_eq (boxes : List BoxChild) (ma : MaterialAssign) :
    assignBoxes boxes ma = boxes.map (fun b =>
      if fix_str ma.materialName = b.name then
        { b with pathFilterPaths := b.pathFilterPaths ++ [derivedPath ma] }
      else b) := by
  obtain ⟨seg, hseg⟩ : ∃ seg, (splitChars '/' ma.geom.data).getLast? = some seg := by
    cases hs : (splitChars '/' ma.geom.data).getLast? with
    | some seg => exact ⟨seg, rfl⟩
    | none =>
        exact absurd (List.getLast?_eq_none_iff.mp hs)
          (splitChars_ne_nil '/' ma.geom.data)
  have hderived : derivedPath ma = pyReplace ma.geom (String.mk seg) "" := by
    simp [derivedPath, List.getLastD_eq_getLast?, hseg]
  unfold assignBoxes
  simp only [hseg, hderived]

theorem foldl_assignBoxes_char (mas : List MaterialAssign) :
    ∀ boxes : List BoxChild,
    mas.foldl assignBoxes boxes = boxes.map (fun b =>
      { b with pathFilterPaths := b.pathFilterPaths ++
          (mas.filter
            (fun ma => fix_str ma.materialName = b.name)).map derivedPath }) := by
  induction mas with
  | nil => intro boxes; simp
  | cons ma rest ih =>
      intro boxes
      rw [List.foldl_cons, assignBoxes_eq, ih, List.map_map]
      rw [List.map_eq_map_iff]
      intro b _
      by_cases hn : fix_str ma.materialName = b.name <;>
        simp [Function.comp, hn, List.filter_cons]

theorem foldl_assign_step_fields (mas : List MaterialAssign) :
    ∀ s : NodeState,
    mas.foldl assign_step s = { s with boxes := mas.foldl assignBoxes s.boxes } := by
  induction mas with
  | nil => intro s; simp
  | cons ma rest ih =>
      intro s
      rw [List.foldl_cons, List.foldl_cons]
      rw [show assign_step s ma = { s with boxes := assignBoxes s.boxes ma } from rfl]
      rw [ih]

theorem assign_looks_loop_lt_boxes (looks : List Look) :
    ∀ (look_idx idx : Nat) (st : NodeState), look_idx < idx →
    (assign_looks_loop look_idx idx st looks).boxes = st.boxes := by
  induction looks with
  | nil => intro look_idx idx st _; simp [assign_looks_loop]
  | cons l rest ih =>
      intro look_idx idx st h
      simp only [assign_looks_loop]
      rw [if_neg (by omega)]
      exact ih look_idx (idx + 1) _ (by omega)

theorem assign_looks_loop_get_boxes (looks : List Look) :
    ∀ (j : Nat) (look : Look) (idx : Nat) (st : NodeState),
    looks.get? j = some look →
    (assign_looks_loop (idx + j) idx st looks).boxes =
      look.materialAssigns.foldl assignBoxes
        (st.boxes.map (fun b => { b with pathFilterPaths := [] })) := by
  induction looks with
  | nil => intro j look idx st h; simp at h
  | cons l rest ih =>
      intro j look idx st h
      cases j with
      | zero =>
          simp only [List.get?] at h
          injection h with h
          subst h
          simp only [assign_looks_loop]
          rw [if_pos (by omega : idx + 0 = idx)]
          rw [assign_looks_loop_lt_boxes rest _ _ _ (by omega)]
          rw [foldl_assign_step_fields]
      | succ j' =>
          simp only [List.get?] at h
          simp only [assign_looks_loop]
          rw [if_neg (by omega : ¬idx + (j' + 1) = idx)]
          rw [show idx + (j' + 1) = (idx + 1) + j' by omega]
          exact ih j' look (idx + 1) _ h

theorem setup_assignments_boxes (read : ReadResult) (look_idx : Nat)
    (st : NodeState) (doc : Document) (look : Look)
    (hdoc : st.mtlx_doc = some doc)
    (hlook : doc.looks.get? look_idx = some look) :
    (setup_assignments_model read look_idx st).boxes =
      st.boxes.map (fun b =>
        { b with pathFilterPaths :=
            (look.materialAssigns.filter
              (fun ma => fix_str ma.materialName = b.name)).map derivedPath }) := by
  have hmodel : setup_assignments_model read look_idx st =
      assign_looks_loop look_idx 0 { st with mtlXLook := look_idx } doc.looks := by
    unfold setup_assignments_model
    rw [hdoc]
  rw [hmodel]
  have hloop := assign_looks_loop_get_boxes doc.looks look_idx look 0
    { st with mtlXLook := look_idx } hlook
  rw [show (0 : Nat) + look_idx = look_idx by omega] at hloop
  rw [hloop, foldl_assignBoxes_char, List.map_map]
  rw [show ({ st with mtlXLook := look_idx } : NodeState).boxes = st.boxes from rfl]
  rw [List.map_eq_map_iff]
  intro b _
  simp [Function.comp]

/-- **C4, counterexample.**  The claim states the appended filter path is
always the geometry path with its final segment removed and the trailing
separator retained; but the code removes *every* occurrence of the final
segment (Python `str.replace`): for the assign `m → "/a/a"` the appended
path is `"//"`, not `"/a/"`. -/
theorem claim_C4_counterexample :
    (setup_assignments_model (Except.error "e") 0 cxStC4).boxes =
      [{ matIdx := 0, name := "m", pathFilterPaths := ["//"], boxIn := none }] ∧
    ("//" : String) ≠ "/a/" := by
  exact ⟨by decide, by decide⟩

/-- **C4, amended.** For every material assignment in the active look whose
referenced material matches an existing MaterialBox by sanitized name, the
path appended to that box's `PathFilter` paths list equals the assign's
geometry path with *every occurrence* of its final `/`-separated segment
removed (Python `str.replace` semantics); after the phase each box's paths
list is exactly the derived paths of its matching assigns in document
order.  When the final segment occurs only once in the path — e.g.
`"/a/b/c"` — this is the parent path with the trailing separator retained,
`"/a/b/"`. -/
theorem claim_C4_amended (read : ReadResult) (look_idx : Nat)
    (st : NodeState) (doc : Document) (look : Look)
    (hdoc : st.mtlx_doc = some doc)
    (hlook : doc.looks.get? look_idx = some look) :
    (setup_assignments_model read look_idx st).boxes =
      st.boxes.map (fun b =>
        { b with pathFilterPaths :=
            (look.materialAssigns.filter
              (fun ma => fix_str ma.materialName = b.name)).map derivedPath }) ∧
    derivedPath { materialName := "m", geom := "/a/b/c" } = "/a/b/" :=
  ⟨setup_assignments_boxes read look_idx st doc look hdoc hlook, by decide⟩

/-- Witness for the amended C4: on a one-box state with a single matching
assign to `"/a/b/c"`, the box's filter paths become `["/a/b/"]`. -/
theorem claim_C4_witness :
    (setup_assignments_model (Except.error "e") 0 wStC4).boxes =
      [{ matIdx := 0, name := "m", pathFilterPaths := ["/a/b/"], boxIn := none }] := by
  obtain ⟨h1, _⟩ :=
    claim_C4_amended (Except.error "e") 0 wStC4 wDocC4
      ⟨"beauty", [⟨"m", "/a/b/c"⟩], []⟩ rfl rfl
  exact h1.trans (by decide)

/-! ### Characterization of the material-box build (`setup_materials`) -/

theorem getLast?_getD_cons {α : Type} (a d : α) (l : List α) :
    ((a :: l).getLast?).getD d = (l.getLast?).getD a := by
  cases l with
  | nil => rfl
  | cons b t =>
      rw [List.getLast?_cons_cons]
      cases h : (b :: t).getLast? with
      | none =>
          exact absurd (List.getLast?_eq_none_iff.mp h) (by simp)
      | some x => rfl

theorem getLast?_map_fst (xs : List (Nat × Material)) :
    (xs.map Prod.fst).getLast? = Option.map Prod.fst xs.getLast? := by
  induction xs with
  | nil => rfl
  | cons x t ih =>
      cases t with
      | nil => rfl
      | cons y u =>
          rw [show ((x :: y :: u).map Prod.fst).getLast? =
            ((y :: u).map Prod.fst).getLast? from List.getLast?_cons_cons]
          rw [show (x :: y :: u).getLast? = (y :: u).getLast?
            from List.getLast?_cons_cons]
          exact ih

theorem chainFrom_concat (xs : List (Nat × Material)) :
    ∀ (p i : Nat) (m : Material),
    chainFrom p (xs ++ [(i, m)]) =
      chainFrom p xs ++
        [⟨i, fix_str m.name, [], some (Src.boxOut ((xs.map Prod.fst).getLastD p))⟩] := by
  induction xs with
  | nil => intro p i m; simp [chainFrom]
  | cons x xs ih =>
      intro p i m
      cases x with
      | mk j q =>
          rw [show ((j, q) :: xs) ++ [(i, m)] = (j, q) :: (xs ++ [(i, m)]) from rfl]
          rw [show chainFrom p ((j, q) :: (xs ++ [(i, m)])) =
            ⟨j, fix_str q.name, [], some (Src.boxOut p)⟩ ::
              chainFrom j (xs ++ [(i, m)]) from rfl]
          rw [ih j i m]
          rw [show chainFrom p ((j, q) :: xs) =
            ⟨j, fix_str q.name, [], some (Src.boxOut p)⟩ :: chainFrom j xs from rfl]
          simp only [List.getLastD_eq_getLast?, List.map_cons]
          rw [getLast?_getD_cons j p (List.map Prod.fst xs), getLast?_map_fst]
          simp

theorem material_ref_step_steady (i : Nat) (ph : MatPhase)
    (h1 : ph.added = true)
    (h2 : ∃ lastB, ph.st.boxes.getLast? = some lastB ∧ lastB.matIdx = i)
    (h3 : setFirstBoxIn ph.st.boxes = ph.st.boxes)
    (h4 : ph.st.outSrc = Src.boxOut i) :
    material_ref_step i ph = ph := by
  obtain ⟨lastB, hl, hm⟩ := h2
  simp only [material_ref_step, hl, hm, ne_eq, not_true_eq_false, if_false, h1,
    if_true]
  rw [h3, ← h4, ← h1]

theorem foldl_material_ref_step_steady (refs : List ShaderRef) (i : Nat)
    (ph : MatPhase) (h1 : ph.added = true)
    (h2 : ∃ lastB, ph.st.boxes.getLast? = some lastB ∧ lastB.matIdx = i)
    (h3 : setFirstBoxIn ph.st.boxes = ph.st.boxes)
    (h4 : ph.st.outSrc = Src.boxOut i) :
    refs.foldl (fun p _ => material_ref_step i p) ph = ph := by
  induction refs with
  | nil => rfl
  | cons r rest ih =>
      rw [List.foldl_cons, material_ref_step_steady i ph h1 h2 h3 h4]
      exact ih

theorem setup_material_refs_empty (i : Nat) (bname : String) (st : NodeState)
    (refs : List ShaderRef) (h : st.boxes = []) (hne : refs ≠ []) :
    setup_material_refs i bname st refs =
      { st with
          boxes := [⟨i, bname, [],
            if 2 ≤ refs.length then some Src.hostIn else none⟩]
          outSrc := if 2 ≤ refs.length then Src.boxOut i else st.outSrc } := by
  cases refs with
  | nil => exact absurd rfl hne
  | cons r rest =>
      unfold setup_material_refs
      rw [List.foldl_cons]
      have hstep1 : material_ref_step i
          ⟨st, ⟨i, bname, [], none⟩, false⟩ =
          ⟨{ st with boxes := [⟨i, bname, [], none⟩] },
            ⟨i, bname, [], none⟩, true⟩ := by
        simp [material_ref_step, h]
      rw [hstep1]
      cases rest with
      | nil =>
          rw [List.foldl_nil]
          rw [if_neg (by simp), if_neg (by simp)]
      | cons r2 rest2 =>
          rw [List.foldl_cons]
          have hstep2 : material_ref_step i
              ⟨{ st with boxes := [⟨i, bname, [], none⟩] },
                ⟨i, bname, [], none⟩, true⟩ =
              ⟨{ st with boxes := [⟨i, bname, [], some Src.hostIn⟩]
                         outSrc := Src.boxOut i },
                ⟨i, bname, [], none⟩, true⟩ := by
            simp [material_ref_step, setFirstBoxIn]
          rw [hstep2]
          rw [foldl_material_ref_step_steady rest2 i
            ⟨{ st with boxes := [⟨i, bname, [], some Src.hostIn⟩]
                       outSrc := Src.boxOut i },
              ⟨i, bname, [], none⟩, true⟩ rfl
            ⟨⟨i, bname, [], some Src.hostIn⟩, rfl, rfl⟩
            (by simp [setFirstBoxIn]) rfl]
          rw [if_pos (by simp), if_pos (by simp)]

theorem setFirstBoxIn_append (a b : List BoxChild) (h : a ≠ []) :
    setFirstBoxIn (a ++ b) = setFirstBoxIn a ++ b := by
  cases a with
  | nil => exact absurd rfl h
  | cons x xs => simp [setFirstBoxIn]

theorem setFirstBoxIn_idem (l : List BoxChild) :
    setFirstBoxIn (setFirstBoxIn l) = setFirstBoxIn l := by
  cases l <;> simp [setFirstBoxIn]

theorem setFirstBoxIn_ne_nil (l : List BoxChild) (h : l ≠ []) :
    setFirstBoxIn l ≠ [] := by
  cases l with
  | nil => exact absurd rfl h
  | cons x xs => simp [setFirstBoxIn]

theorem setup_material_refs_chain (i : Nat) (bname : String) (st : NodeState)
    (refs : List ShaderRef) (lastB : BoxChild)
    (hlast : st.boxes.getLast? = some lastB) (hm : ¬lastB.matIdx = i)
    (hne : refs ≠ []) :
    setup_material_refs i bname st refs =
      { st with
          boxes := setFirstBoxIn st.boxes ++
            [⟨i, bname, [], some (Src.boxOut lastB.matIdx)⟩]
          outSrc := Src.boxOut i } := by
  have hboxes_ne : st.boxes ≠ [] := by
    intro hb
    rw [hb] at hlast
    simp at hlast
  cases refs with
  | nil => exact absurd rfl hne
  | cons r rest =>
      unfold setup_material_refs
      rw [List.foldl_cons]
      have hstep1 : material_ref_step i
          ⟨st, ⟨i, bname, [], none⟩, false⟩ =
          ⟨{ st with
              boxes := setFirstBoxIn st.boxes ++
                [⟨i, bname, [], some (Src.boxOut lastB.matIdx)⟩]
              outSrc := Src.boxOut i },
            ⟨i, bname, [], some (Src.boxOut lastB.matIdx)⟩, true⟩ := by
        simp [material_ref_step, hlast, hm]
      rw [hstep1]
      rw [foldl_material_ref_step_steady rest i _ rfl
        ⟨⟨i, bname, [], some (Src.boxOut lastB.matIdx)⟩, List.getLast?_concat _, rfl⟩
        (by
          show setFirstBoxIn (setFirstBoxIn st.boxes ++
            [⟨i, bname, [], some (Src.boxOut lastB.matIdx)⟩]) = _
          rw [setFirstBoxIn_append _ _ (setFirstBoxIn_ne_nil _ hboxes_ne),
            setFirstBoxIn_idem])
        rfl]

theorem lastPairIdx_concat (xs : List (Nat × Material)) (i : Nat) (m : Material) :
    lastPairIdx (xs ++ [(i, m)]) = i := by
  simp [lastPairIdx, List.getLast?_concat]

theorem lastPairIdx_eq (xs : List (Nat × Material)) :
    ∀ (j : Nat) (q : Material),
    lastPairIdx ((j, q) :: xs) = (xs.map Prod.fst).getLastD j := by
  induction xs with
  | nil => intro j q; simp [lastPairIdx]
  | cons p xs ih =>
      intro j q
      cases p with
      | mk j' q' =>
          have h1 : lastPairIdx ((j, q) :: (j', q') :: xs) =
              lastPairIdx ((j', q') :: xs) := by
            simp [lastPairIdx, List.getLast?_cons_cons]
          rw [h1, ih j' q']
          simp only [List.getLastD_eq_getLast?, List.map_cons]
          rw [getLast?_getD_cons j' j (List.map Prod.fst xs), getLast?_map_fst]

theorem setFirstBoxIn_expectedBoxes (many : Bool) (pairs : List (Nat × Material)) :
    setFirstBoxIn (expectedBoxes many pairs) = expectedBoxes true pairs := by
  cases pairs with
  | nil => simp [expectedBoxes, setFirstBoxIn]
  | cons p xs =>
      cases p with
      | mk i m => simp [expectedBoxes, setFirstBoxIn]

theorem expectedBoxes_concat (many : Bool) (j : Nat) (q : Material)
    (xs : List (Nat × Material)) (i : Nat) (m : Material) :
    expectedBoxes many (((j, q) :: xs) ++ [(i, m)]) =
      expectedBoxes many ((j, q) :: xs) ++
        [⟨i, fix_str m.name, [], some (Src.boxOut (lastPairIdx ((j, q) :: xs)))⟩] := by
  rw [show ((j, q) :: xs) ++ [(i, m)] = (j, q) :: (xs ++ [(i, m)]) from rfl]
  rw [show expectedBoxes many ((j, q) :: (xs ++ [(i, m)])) =
    (⟨j, fix_str q.name, [], if many then some Src.hostIn else none⟩ : BoxChild) ::
      chainFrom j (xs ++ [(i, m)]) from rfl]
  rw [chainFrom_concat]
  rw [show expectedBoxes many ((j, q) :: xs) =
    (⟨j, fix_str q.name, [], if many then some Src.hostIn else none⟩ : BoxChild) ::
      chainFrom j xs from rfl]
  rw [lastPairIdx_eq]
  simp

theorem chainFrom_ne_nil (xs : List (Nat × Material)) (p : Nat) (h : xs ≠ []) :
    chainFrom p xs ≠ [] := by
  cases xs with
  | nil => exact absurd rfl h
  | cons x t => cases x with | mk j q => simp [chainFrom]

theorem getLast?_cons_of_ne_nil {α : Type} (a : α) (l : List α) (h : l ≠ []) :
    (a :: l).getLast? = l.getLast? := by
  cases l with
  | nil => exact absurd rfl h
  | cons b t => exact List.getLast?_cons_cons

theorem chainFrom_getLast_spec (xs : List (Nat × Material)) :
    ∀ p : Nat, xs ≠ [] →
    ∃ lastB : BoxChild, (chainFrom p xs).getLast? = some lastB ∧
      lastB.matIdx = (xs.map Prod.fst).getLastD p := by
  induction xs with
  | nil => intro p h; exact absurd rfl h
  | cons x xs ih =>
      intro p _
      cases x with
      | mk j q =>
          by_cases hxs : xs = []
          · subst hxs
            exact ⟨⟨j, fix_str q.name, [], some (Src.boxOut p)⟩, rfl, rfl⟩
          · obtain ⟨lastB, h1, h2⟩ := ih j hxs
            refine ⟨lastB, ?_, ?_⟩
            · rw [show chainFrom p ((j, q) :: xs) =
                (⟨j, fix_str q.name, [], some (Src.boxOut p)⟩ : BoxChild) ::
                  chainFrom j xs from rfl]
              rw [getLast?_cons_of_ne_nil _ _ (chainFrom_ne_nil xs j hxs), h1]
            · rw [h2]
              simp only [List.getLastD_eq_getLast?, List.map_cons]
              rw [getLast?_getD_cons j p (List.map Prod.fst xs), getLast?_map_fst]

theorem expectedBoxes_getLast_spec (many : Bool) (pairs : List (Nat × Material))
    (h : pairs ≠ []) :
    ∃ lastB : BoxChild, (expectedBoxes many pairs).getLast? = some lastB ∧
      lastB.matIdx = lastPairIdx pairs := by
  cases pairs with
  | nil => exact absurd rfl h
  | cons p xs =>
      cases p with
      | mk j q =>
          by_cases hxs : xs = []
          · subst hxs
            exact ⟨⟨j, fix_str q.name, [],
              if many then some Src.hostIn else none⟩, rfl, rfl⟩
          · obtain ⟨lastB, h1, h2⟩ := chainFrom_getLast_spec xs j hxs
            refine ⟨lastB, ?_, ?_⟩
            · rw [show expectedBoxes many ((j, q) :: xs) =
                (⟨j, fix_str q.name, [],
                  if many then some Src.hostIn else none⟩ : BoxChild) ::
                  chainFrom j xs from rfl]
              rw [getLast?_cons_of_ne_nil _ _ (chainFrom_ne_nil xs j hxs), h1]
            · rw [h2, lastPairIdx_eq]

theorem refCount_cons (m : Material) (ms : List Material) :
    refCount (m :: ms) = m.shaderRefs.length + refCount ms := by
  simp [refCount]

theorem materials_loop_cons (i0 : Nat) (st : NodeState) (m : Material)
    (rest : List Material) :
    materials_loop i0 st (m :: rest) =
      materials_loop (i0 + 1)
        (setup_material_refs i0 (fix_str m.name) st m.shaderRefs) rest := rfl

theorem withRefs_cons_nil (m : Material) (rest : List Material) (i0 : Nat)
    (h : m.shaderRefs = []) :
    withRefs (m :: rest) i0 = withRefs rest (i0 + 1) := by
  simp [withRefs, h]

theorem withRefs_cons_ne (m : Material) (rest : List Material) (i0 : Nat)
    (h : ¬m.shaderRefs = []) :
    withRefs (m :: rest) i0 = (i0, m) :: withRefs rest (i0 + 1) := by
  simp [withRefs, h]

theorem materials_loop_char (ms : List Material) :
    ∀ (i0 : Nat) (orig : NodeState) (pairs : List (Nat × Material)) (N : Nat),
    (pairs = [] → N = 0) →
    (pairs ≠ [] → 1 ≤ N) →
    (pairs ≠ [] → lastPairIdx pairs < i0) →
    materials_loop i0
      { orig with
          boxes := expectedBoxes (decide (2 ≤ N)) pairs
          outSrc := if 2 ≤ N then Src.boxOut (lastPairIdx pairs) else orig.outSrc }
      ms =
    { orig with
        boxes := expectedBoxes (decide (2 ≤ N + refCount ms))
          (pairs ++ withRefs ms i0)
        outSrc := if 2 ≤ N + refCount ms
          then Src.boxOut (lastPairIdx (pairs ++ withRefs ms i0))
          else orig.outSrc } := by
  induction ms with
  | nil =>
      intro i0 orig pairs N _ _ _
      simp [materials_loop, withRefs, refCount]
  | cons m rest ih =>
      intro i0 orig pairs N hp0 hp1 hplast
      rw [materials_loop_cons]
      by_cases hrefs : m.shaderRefs = []
      · rw [hrefs]
        rw [show ∀ stx : NodeState,
          setup_material_refs i0 (fix_str m.name) stx [] = stx
          from fun stx => rfl]
        rw [ih (i0 + 1) orig pairs N hp0 hp1 (fun hn => by
          have := hplast hn
          omega)]
        rw [withRefs_cons_nil m rest i0 hrefs]
        rw [show N + refCount (m :: rest) = N + refCount rest by
          rw [refCount_cons, hrefs]
          simp]
      · have hlen : 1 ≤ m.shaderRefs.length := List.length_pos.mpr hrefs
        by_cases hpairs : pairs = []
        · subst hpairs
          have hN0 : N = 0 := hp0 rfl
          subst hN0
          rw [show (if 2 ≤ 0 then Src.boxOut (lastPairIdx []) else orig.outSrc) =
            orig.outSrc from if_neg (by omega)]
          rw [show expectedBoxes (decide (2 ≤ 0)) ([] : List (Nat × Material)) =
            ([] : List BoxChild) from rfl]
          rw [setup_material_refs_empty i0 (fix_str m.name) _ m.shaderRefs rfl hrefs]
          have hform :
              ({ { orig with boxes := ([] : List BoxChild), outSrc := orig.outSrc } with
                  boxes := [⟨i0, fix_str m.name, [],
                    if 2 ≤ m.shaderRefs.length then some Src.hostIn else none⟩]
                  outSrc := if 2 ≤ m.shaderRefs.length then Src.boxOut i0
                    else ({ orig with boxes := ([] : List BoxChild), outSrc := orig.outSrc } : NodeState).outSrc } : NodeState) =
              { orig with
                  boxes := expectedBoxes (decide (2 ≤ 0 + m.shaderRefs.length))
                    [(i0, m)]
                  outSrc := if 2 ≤ 0 + m.shaderRefs.length
                    then Src.boxOut (lastPairIdx [(i0, m)])
                    else orig.outSrc } := by
            rw [show lastPairIdx [(i0, m)] = i0 from rfl]
            rw [show ((0 : Nat) + m.shaderRefs.length) = m.shaderRefs.length by omega]
            rw [show expectedBoxes (decide (2 ≤ m.shaderRefs.length)) [(i0, m)] =
              [⟨i0, fix_str m.name, [],
                if decide (2 ≤ m.shaderRefs.length) then some Src.hostIn
                else none⟩] from rfl]
            by_cases hl2 : 2 ≤ m.shaderRefs.length
            · simp [hl2]
            · simp [hl2]
          rw [hform]
          rw [ih (i0 + 1) orig [(i0, m)] (0 + m.shaderRefs.length)
            (by intro hc; simp at hc)
            (by intro _; omega)
            (by
              intro _
              rw [show lastPairIdx [(i0, m)] = i0 from rfl]
              omega)]
          rw [withRefs_cons_ne m rest i0 hrefs]
          rw [show ([(i0, m)] : List (Nat × Material)) ++ withRefs rest (i0 + 1) =
            ([] : List (Nat × Material)) ++ ((i0, m) :: withRefs rest (i0 + 1))
            from rfl]
          rw [show ((0 : Nat) + m.shaderRefs.length) + refCount rest =
            0 + refCount (m :: rest) by
            rw [refCount_cons]
            omega]
        · have hN1 : 1 ≤ N := hp1 hpairs
          obtain ⟨lastB, hlast, hmatch⟩ :=
            expectedBoxes_getLast_spec (decide (2 ≤ N)) pairs hpairs
          have hmne : ¬lastB.matIdx = i0 := by
            rw [hmatch]
            have := hplast hpairs
            omega
          rw [setup_material_refs_chain i0 (fix_str m.name) _ m.shaderRefs lastB
            (by exact hlast) hmne hrefs]
          have hform :
              ({ { orig with
                    boxes := expectedBoxes (decide (2 ≤ N)) pairs
                    outSrc := if 2 ≤ N then Src.boxOut (lastPairIdx pairs)
                      else orig.outSrc } with
                  boxes := setFirstBoxIn (expectedBoxes (decide (2 ≤ N)) pairs) ++
                    [⟨i0, fix_str m.name, [], some (Src.boxOut lastB.matIdx)⟩]
                  outSrc := Src.boxOut i0 } : NodeState) =
              { orig with
                  boxes := expectedBoxes
                    (decide (2 ≤ N + m.shaderRefs.length)) (pairs ++ [(i0, m)])
                  outSrc := if 2 ≤ N + m.shaderRefs.length
                    then Src.boxOut (lastPairIdx (pairs ++ [(i0, m)]))
                    else orig.outSrc } := by
            have h2c : 2 ≤ N + m.shaderRefs.length := by omega
            rw [if_pos h2c, lastPairIdx_concat]
            rw [setFirstBoxIn_expectedBoxes, hmatch]
            cases pairs with
            | nil => exact absurd rfl hpairs
            | cons p xs =>
                cases p with
                | mk j q =>
                    rw [expectedBoxes_concat]
                    rw [show decide (2 ≤ N + m.shaderRefs.length) = true
                      from decide_eq_true h2c]
          rw [hform]
          rw [ih (i0 + 1) orig (pairs ++ [(i0, m)]) (N + m.shaderRefs.length)
            (by intro hc; simp at hc)
            (by intro _; omega)
            (by
              intro _
              rw [lastPairIdx_concat]
              omega)]
          rw [withRefs_cons_ne m rest i0 hrefs]
          rw [show (pairs ++ [(i0, m)]) ++ withRefs rest (i0 + 1) =
            pairs ++ ((i0, m) :: withRefs rest (i0 + 1)) by
            simp]
          rw [show N + m.shaderRefs.length + refCount rest =
            N + refCount (m :: rest) by
            rw [refCount_cons]
            omega]

theorem setup_materials_char (doc : Document) (st : NodeState)
    (h : st.boxes = []) :
    setup_materials_model doc st =
      { st with
          boxes := expectedBoxes (decide (2 ≤ refCount doc.materials))
            (withRefs doc.materials 0)
          outSrc := if 2 ≤ refCount doc.materials
            then Src.boxOut (lastPairIdx (withRefs doc.materials 0))
            else st.outSrc } := by
  have hmain := materials_loop_char doc.materials 0 st [] 0
    (fun _ => rfl) (fun hn => absurd rfl hn) (fun hn => absurd rfl hn)
  have hst : ({ st with
      boxes := expectedBoxes (decide (2 ≤ 0)) ([] : List (Nat × Material))
      outSrc := if 2 ≤ 0 then Src.boxOut (lastPairIdx []) else st.outSrc } :
        NodeState) = st := by
    rw [if_neg (by omega : ¬(2 : Nat) ≤ 0)]
    rw [show expectedBoxes (decide (2 ≤ 0)) ([] : List (Nat × Material)) = []
      from rfl]
    rw [← h]
  rw [hst] at hmain
  unfold setup_materials_model
  rw [hmain]
  simp

theorem chainFrom_length (xs : List (Nat × Material)) :
    ∀ p : Nat, (chainFrom p xs).length = xs.length := by
  induction xs with
  | nil => intro p; rfl
  | cons x t ih =>
      intro p
      cases x with
      | mk j q => simp [chainFrom, ih j]

theorem expectedBoxes_length (many : Bool) (pairs : List (Nat × Material)) :
    (expectedBoxes many pairs).length = pairs.length := by
  cases pairs with
  | nil => rfl
  | cons p xs =>
      cases p with
      | mk j q => simp [expectedBoxes, chainFrom_length]

/-- **C1, counterexample.** The claim says every material — including one
with zero shader references — yields a MaterialBox, and that the boundary
connections (first box's `in` from the host `in`, host `out` from the last
box's `out`) are always made.  On a document with a one-reference material
followed by a zero-reference material, only one box is created (the
`addChild` happens inside the shader-reference loop), the single box's
`in` plug stays unconnected, and the host `out` keeps its constructor
pass-through. -/
theorem claim_C1_counterexample :
    (setup_materials_model cxDocC1 cxStC1).boxes =
      [{ matIdx := 0, name := "m0", pathFilterPaths := [], boxIn := none }] ∧
    cxDocC1.materials.length = 2 ∧
    ¬(setup_materials_model cxDocC1 cxStC1).boxes.length =
      cxDocC1.materials.length ∧
    (setup_materials_model cxDocC1 cxStC1).outSrc = Src.hostIn := by
  exact ⟨by decide, by decide, by decide, by decide⟩

/-- **C1, amended.** Starting from a node with no box children,
`setup_materials` creates exactly one MaterialBox per material *with at
least one shader reference*, in document declaration order (`withRefs`
pairs each such material with its index); box `k`'s scene input connects
to box `k-1`'s scene output for `k ≥ 1`; and the boundary connections —
the first box's input from the host's own scene input, and the host's
scene output from the last box's output — are made if and only if the
document carries at least two shader references in total (they are made
inside the per-reference loop, which only sees a previous box from the
second reference iteration on).  All of this is the content of
`expectedBoxes`. -/
theorem claim_C1_amended (doc : Document) (st : NodeState) (h : st.boxes = []) :
    (setup_materials_model doc st).boxes =
      expectedBoxes (decide (2 ≤ refCount doc.materials))
        (withRefs doc.materials 0) ∧
    (setup_materials_model doc st).outSrc =
      (if 2 ≤ refCount doc.materials
       then Src.boxOut (lastPairIdx (withRefs doc.materials 0))
       else st.outSrc) ∧
    (setup_materials_model doc st).boxes.length =
      (withRefs doc.materials 0).length := by
  rw [setup_materials_char doc st h]
  exact ⟨rfl, rfl, expectedBoxes_length _ _⟩

/-- Witness for the amended C1: two materials with one shader reference
each produce two chained boxes with both boundary connections made. -/
theorem claim_C1_witness :
    (setup_materials_model wDocC1 initial_state).boxes =
      [{ matIdx := 0, name := "m0", pathFilterPaths := [],
         boxIn := some Src.hostIn },
       { matIdx := 1, name := "m1", pathFilterPaths := [],
         boxIn := some (Src.boxOut 0) }] ∧
    (setup_materials_model wDocC1 initial_state).outSrc = Src.boxOut 1 := by
  obtain ⟨h1, h2, _⟩ := claim_C1_amended wDocC1 initial_state rfl
  exact ⟨h1.trans (by decide), h2.trans (by decide)⟩

/-! ### The connection pass of `setup_materials` and error propagation -/

theorem connections_pass_ok_iff (boxes : List BoxChild) (ms : List Material) :
    connections_pass boxes ms = Except.ok () ↔
      ∀ m ∈ ms, ∃ b ∈ boxes, b.name = fix_str m.name := by
  induction ms with
  | nil => simp [connections_pass]
  | cons m rest ih =>
      unfold connections_pass
      by_cases h : boxes.any (fun b => decide (b.name = fix_str m.name)) = true
      · rw [if_pos h, ih]
        have hex : ∃ b ∈ boxes, b.name = fix_str m.name := by
          obtain ⟨b, hb, hbe⟩ := List.any_eq_true.mp h
          exact ⟨b, hb, of_decide_eq_true hbe⟩
        constructor
        · intro hall m' hm'
          rcases List.mem_cons.mp hm' with rfl | hm'
          · exact hex
          · exact hall m' hm'
        · intro hall m' hm'
          exact hall m' (List.mem_cons_of_mem m hm')
      · rw [if_neg h]
        constructor
        · intro hfalse
          cases hfalse
        · intro hall
          exfalso
          obtain ⟨b, hb, hbe⟩ := hall m (List.mem_cons_self m rest)
          exact h (List.any_eq_true.mpr ⟨b, hb, decide_eq_true hbe⟩)

theorem chainFrom_name_mem (pairs : List (Nat × Material)) (b : BoxChild) :
    ∀ prev, b ∈ chainFrom prev pairs → ∃ p ∈ pairs, b.name = fix_str p.2.name := by
  induction pairs with
  | nil =>
      intro prev hb
      cases hb
  | cons p rest ih =>
      intro prev hb
      cases p with
      | mk i m =>
          simp only [chainFrom] at hb
          rcases List.mem_cons.mp hb with rfl | hb'
          · exact ⟨(i, m), List.mem_cons_self _ _, rfl⟩
          · obtain ⟨q, hq, hqe⟩ := ih i hb'
            exact ⟨q, List.mem_cons_of_mem _ hq, hqe⟩

theorem expectedBoxes_name_mem (many : Bool) (pairs : List (Nat × Material))
    (b : BoxChild) (hb : b ∈ expectedBoxes many pairs) :
    ∃ p ∈ pairs, b.name = fix_str p.2.name := by
  cases pairs with
  | nil => cases hb
  | cons p rest =>
      cases p with
      | mk i m =>
          simp only [expectedBoxes] at hb
          rcases List.mem_cons.mp hb with rfl | hb'
          · exact ⟨(i, m), List.mem_cons_self _ _, rfl⟩
          · obtain ⟨q, hq, hqe⟩ := chainFrom_name_mem rest b i hb'
            exact ⟨q, List.mem_cons_of_mem _ hq, hqe⟩

theorem withRefs_mem (ms : List Material) :
    ∀ (i : Nat) (p : Nat × Material), p ∈ withRefs ms i →
      p.2 ∈ ms ∧ ¬p.2.shaderRefs = [] := by
  induction ms with
  | nil =>
      intro i p hp
      cases hp
  | cons m rest ih =>
      intro i p hp
      simp only [withRefs] at hp
      by_cases h : m.shaderRefs = []
      · rw [if_pos h] at hp
        obtain ⟨hm, hr⟩ := ih (i + 1) p hp
        exact ⟨List.mem_cons_of_mem _ hm, hr⟩
      · rw [if_neg h] at hp
        rcases List.mem_cons.mp hp with rfl | hp'
        · exact ⟨List.mem_cons_self _ _, h⟩
        · obtain ⟨hm, hr⟩ := ih (i + 1) p hp'
          exact ⟨List.mem_cons_of_mem _ hm, hr⟩

/-- **C2, counterexample.** The claim says the build phases always run to
completion and return normally for every document.  On a document whose
single material owns no shader reference, the first pass of
`setup_materials` creates no box child, and the connection pass's
unguarded child lookup `self[fix_str(material.getName())]` (source line
327, outside any `try/except`) raises `KeyError` out of the phase. -/
theorem claim_C2_counterexample :
    (setup_materials_run cxDocC2 cxStC2).1.boxes = [] ∧
    (setup_materials_run cxDocC2 cxStC2).2 = Except.error "KeyError: m0" :=
  ⟨rfl, rfl⟩

/-- **C2, amended.** The two static setters never let an error escape: for
every behaviour of the underlying Gaffer primitives (which may fail with
any exception), `set_input_value` and `set_input_connection` return
normally, converting a failed set or connect into a logged-warning
outcome.  But `setup_materials` itself need not return normally: its
second, connection-setting pass looks up `self[fix_str(material.getName())]`
for every material of the document with no surrounding `try/except`, so
the phase returns normally exactly when every material's sanitized name is
carried by some box child built by the first pass; in particular, starting
from a node with no box children, a material with zero shader references
whose sanitized name is shared by no reference-owning material makes
`setup_materials` raise `KeyError`. -/
theorem claim_C2_amended :
    (∀ (primV : SetAttempt → Except String Unit)
       (primC : ConnStep → Except String Unit)
       (input_plug output_plug : PlugShape),
      (set_input_value_model primV input_plug).isOk = true ∧
      (set_input_connection_model primC input_plug output_plug).isOk = true ∧
      (∀ e, primV (value_dispatch input_plug) = Except.error e →
        set_input_value_model primV input_plug =
          Except.ok (SetOutcome.warnedSkip e)) ∧
      (∀ e, runPlan primC (connection_plan input_plug output_plug) =
          Except.error e →
        set_input_connection_model primC input_plug output_plug =
          Except.ok (SetOutcome.warnedSkip e))) ∧
    (∀ (doc : Document) (st : NodeState),
      (setup_materials_run doc st).2 = Except.ok () ↔
        ∀ m ∈ doc.materials, ∃ b ∈ (setup_materials_model doc st).boxes,
          b.name = fix_str m.name) ∧
    (∀ (doc : Document) (st : NodeState) (m : Material),
      st.boxes = [] → m ∈ doc.materials → m.shaderRefs = [] →
      (∀ m' ∈ doc.materials, ¬m'.shaderRefs = [] →
        ¬fix_str m'.name = fix_str m.name) →
      ∃ e, (setup_materials_run doc st).2 = Except.error e) := by
  refine ⟨?_, ?_, ?_⟩
  · intro primV primC input_plug output_plug
    refine ⟨?_, ?_, ?_, ?_⟩
    · simp only [set_input_value_model, plug_is_plug]
      cases primV (value_dispatch input_plug) <;>
        simp [Except.isOk, Except.toBool]
    · simp only [set_input_connection_model, plug_is_plug]
      cases runPlan primC (connection_plan input_plug output_plug) <;>
        simp [Except.isOk, Except.toBool]
    · intro e he
      simp [set_input_value_model, plug_is_plug, he]
    · intro e he
      simp [set_input_connection_model, plug_is_plug, he]
  · intro doc st
    exact connections_pass_ok_iff (setup_materials_model doc st).boxes
      doc.materials
  · intro doc st m hboxes hm hrefs hname
    cases hx : (setup_materials_run doc st).2 with
    | error e => exact ⟨e, rfl⟩
    | ok u =>
        exfalso
        cases u
        have hall := (connections_pass_ok_iff
          (setup_materials_model doc st).boxes doc.materials).mp hx
        obtain ⟨b, hbmem, hbname⟩ := hall m hm
        have hbmem' : b ∈ expectedBoxes (decide (2 ≤ refCount doc.materials))
            (withRefs doc.materials 0) := by
          rw [setup_materials_char doc st hboxes] at hbmem
          exact hbmem
        obtain ⟨p, hp, hpe⟩ := expectedBoxes_name_mem _ _ b hbmem'
        obtain ⟨hpm, hpr⟩ := withRefs_mem doc.materials 0 p hp
        exact hname p.2 hpm hpr (hpe.symm.trans hbname)

/-- Witness for the amended C2: with an always-failing primitive both
setters return normally with the warned-and-skipped outcome, and on the
single zero-reference-material document the full `setup_materials` raises
out of the phase. -/
theorem claim_C2_witness :
    set_input_value_model (fun _ => Except.error "boom") PlugShape.color3 =
      Except.ok (SetOutcome.warnedSkip "boom") ∧
    set_input_connection_model (fun _ => Except.error "boom")
      PlugShape.other PlugShape.other =
      Except.ok (SetOutcome.warnedSkip "boom") ∧
    ∃ e, (setup_materials_run cxDocC2 cxStC2).2 = Except.error e := by
  obtain ⟨hsetters, _, hfail⟩ := claim_C2_amended
  obtain ⟨_, _, h3, _⟩ := hsetters (fun _ => Except.error "boom")
    (fun _ => Except.error "boom") PlugShape.color3 PlugShape.color3
  obtain ⟨_, _, _, h4⟩ := hsetters (fun _ => Except.error "boom")
    (fun _ => Except.error "boom") PlugShape.other PlugShape.other
  refine ⟨h3 "boom" rfl, h4 "boom" rfl, ?_⟩
  exact hfail cxDocC2 cxStC2 ⟨"m0", []⟩ rfl (by decide) rfl (by decide)

/-! ### The missing-file path (`valid_mtlx` / `hash`) -/

/-- **C7.** When the file at `mtlXPath` is missing or unreadable
(`mx.ExceptionFileMissing` with a non-empty diagnostic), `valid_mtlx`
returns a falsy result and stores the diagnostic as the status; `hash`
then reconnects the host's `out` plug to pass its `in` plug through,
records the path as resolved, and creates no generated entities (the box,
attribute and filter children are untouched); the status equals the raw
diagnostic, not the success message with its entity count. -/
theorem claim_C7_confirmed (st : NodeState) (err : String)
    (h1 : ¬err = "") (h2 : ¬st.mtlXPath = st.resolved) :
    (valid_mtlx_model st (Except.error err)).2 = false ∧
    (valid_mtlx_model st (Except.error err)).1.status = err ∧
    hash_model (Except.error err) st =
      { st with
          status := err
          mtlx_doc := some emptyDocument
          outSrc := Src.hostIn
          resolved := st.mtlXPath } ∧
    ¬(hash_model (Except.error err) st).status = "" ∧
    (hash_model (Except.error err) st).boxes = st.boxes ∧
    (hash_model (Except.error err) st).attrs = st.attrs ∧
    (hash_model (Except.error err) st).filters = st.filters := by
  have hh : hash_model (Except.error err) st =
      { st with
          status := err
          mtlx_doc := some emptyDocument
          outSrc := Src.hostIn
          resolved := st.mtlXPath } := by
    unfold hash_model
    rw [if_neg h2]
    rfl
  refine ⟨rfl, rfl, hh, ?_, ?_, ?_, ?_⟩
  · rw [hh]
    exact h1
  · rw [hh]
  · rw [hh]
  · rw [hh]

/-- Witness for C7: a fresh node pointed at a missing file. -/
theorem claim_C7_witness :
    (valid_mtlx_model wStC7 (Except.error "File not found: /nonexistent.mtlx")).2
      = false ∧
    (hash_model (Except.error "File not found: /nonexistent.mtlx") wStC7).status =
      "File not found: /nonexistent.mtlx" ∧
    (hash_model (Except.error "File not found: /nonexistent.mtlx") wStC7).outSrc =
      Src.hostIn ∧
    (hash_model (Except.error "File not found: /nonexistent.mtlx") wStC7).boxes =
      [] ∧
    (hash_model (Except.error "File not found: /nonexistent.mtlx") wStC7).attrs =
      [] := by
  obtain ⟨a, _, c, _, _, _, _⟩ :=
    claim_C7_confirmed wStC7 "File not found: /nonexistent.mtlx"
      (by decide) (by decide)
  exact ⟨a, by rw [c], by rw [c], by rw [c]; rfl, by rw [c]; rfl⟩

/-- **C10.** After any call to `valid_mtlx` — success or failure — the
instance's `mtlx_doc` field is a non-`None` document, because a fresh
`mx.createDocument()` is assigned before parsing is attempted; a failed
load leaves that fresh empty document in place (replacing any previously
loaded one), and a successful load leaves the parsed document.
Consequently the `if self.mtlx_doc is None` guard in `setup_assignments`
and `setup_attributes` can only trigger before the first load attempt. -/
theorem claim_C10_confirmed (st : NodeState) (read : ReadResult) :
    (valid_mtlx_model st read).1.mtlx_doc.isSome = true ∧
    (∀ e, read = Except.error e →
      (valid_mtlx_model st read).1.mtlx_doc = some emptyDocument) ∧
    (∀ d, read = Except.ok d →
      (valid_mtlx_model st read).1.mtlx_doc = some d) := by
  cases read with
  | ok d =>
      refine ⟨rfl, ?_, ?_⟩
      · intro e he
        exact absurd he (by simp)
      · intro d' hd
        injection hd with hd
        subst hd
        rfl
  | error e =>
      refine ⟨rfl, ?_, ?_⟩
      · intro e' _
        rfl
      · intro d' hd
        exact absurd hd (by simp)

/-- Witness for C10: both a failing and a succeeding read leave a
document in place. -/
theorem claim_C10_witness :
    (valid_mtlx_model initial_state (Except.error "missing")).1.mtlx_doc.isSome
      = true ∧
    (valid_mtlx_model initial_state (Except.error "missing")).1.mtlx_doc =
      some emptyDocument ∧
    (valid_mtlx_model initial_state (Except.ok emptyDocument)).1.mtlx_doc =
      some emptyDocument := by
  obtain ⟨a, b, _⟩ := claim_C10_confirmed initial_state (Except.error "missing")
  obtain ⟨_, _, c⟩ := claim_C10_confirmed initial_state (Except.ok emptyDocument)
  exact ⟨a, b "missing" rfl, c emptyDocument rfl⟩

/-! ### A look-index change re-runs the assignment phase only -/

theorem assignBoxes_shape (boxes : List BoxChild) (ma : MaterialAssign) :
    (assignBoxes boxes ma).map boxShape = boxes.map boxShape := by
  rw [assignBoxes_eq, List.map_map]
  rw [List.map_eq_map_iff]
  intro b _
  by_cases hn : fix_str ma.materialName = b.name <;>
    simp [Function.comp, boxShape, hn]

theorem foldl_assignBoxes_shape (mas : List MaterialAssign) :
    ∀ boxes : List BoxChild,
    (mas.foldl assignBoxes boxes).map boxShape = boxes.map boxShape := by
  induction mas with
  | nil => intro boxes; rfl
  | cons ma rest ih =>
      intro boxes
      rw [List.foldl_cons, ih, assignBoxes_shape]

theorem reset_boxes_shape (boxes : List BoxChild) :
    (boxes.map (fun b => { b with pathFilterPaths := [] })).map boxShape =
      boxes.map boxShape := by
  rw [List.map_map]
  rw [List.map_eq_map_iff]
  intro b _
  simp [Function.comp, boxShape]

theorem assign_looks_loop_shape (looks : List Look) :
    ∀ (look_idx idx : Nat) (st : NodeState),
    ∃ P B, assign_looks_loop look_idx idx st looks =
      { st with presets := P, boxes := B } := by
  induction looks with
  | nil =>
      intro _ _ st
      exact ⟨st.presets, st.boxes, rfl⟩
  | cons l rest ih =>
      intro look_idx idx st
      simp only [assign_looks_loop]
      by_cases hm : look_idx = idx
      · rw [if_pos hm, foldl_assign_step_fields]
        obtain ⟨P, B, hPB⟩ := ih look_idx (idx + 1)
          { st with
              presets := setPreset st.presets ("preset:" ++ l.name) idx
              boxes := l.materialAssigns.foldl assignBoxes
                (st.boxes.map (fun b => { b with pathFilterPaths := [] })) }
        exact ⟨P, B, hPB⟩
      · rw [if_neg hm]
        obtain ⟨P, B, hPB⟩ := ih look_idx (idx + 1)
          { st with presets := setPreset st.presets ("preset:" ++ l.name) idx }
        exact ⟨P, B, hPB⟩

theorem assign_looks_loop_box_shape (looks : List Look) :
    ∀ (look_idx idx : Nat) (st : NodeState),
    (assign_looks_loop look_idx idx st looks).boxes.map boxShape =
      st.boxes.map boxShape := by
  induction looks with
  | nil => intro _ _ st; rfl
  | cons l rest ih =>
      intro look_idx idx st
      simp only [assign_looks_loop]
      by_cases hm : look_idx = idx
      · rw [if_pos hm, foldl_assign_step_fields]
        rw [ih]
        show (l.materialAssigns.foldl assignBoxes
            (st.boxes.map (fun b => { b with pathFilterPaths := [] }))).map
              boxShape =
          st.boxes.map boxShape
        rw [foldl_assignBoxes_shape, reset_boxes_shape]
      · rw [if_neg hm]
        rw [ih]

theorem setup_assignments_preserves (read : ReadResult) (look_idx : Nat)
    (st : NodeState) :
    (setup_assignments_model read look_idx st).attrs = st.attrs ∧
    (setup_assignments_model read look_idx st).filters = st.filters ∧
    (setup_assignments_model read look_idx st).outSrc = st.outSrc ∧
    (setup_assignments_model read look_idx st).boxes.map boxShape =
      st.boxes.map boxShape := by
  cases hdoc : st.mtlx_doc with
  | some doc =>
      have hmodel : setup_assignments_model read look_idx st =
          assign_looks_loop look_idx 0 { st with mtlXLook := look_idx }
            doc.looks := by
        unfold setup_assignments_model
        rw [hdoc]
      obtain ⟨P, B, hPB⟩ := assign_looks_loop_shape doc.looks look_idx 0
        { st with mtlXLook := look_idx }
      have hbs := assign_looks_loop_box_shape doc.looks look_idx 0
        { st with mtlXLook := look_idx }
      rw [hPB] at hbs
      rw [hmodel, hPB]
      exact ⟨rfl, rfl, rfl, hbs⟩
  | none =>
      cases read with
      | error e =>
          have hmodel : setup_assignments_model (Except.error e) look_idx st =
              { st with
                  mtlXLook := look_idx
                  mtlx_doc := some emptyDocument
                  status := e } := by
            unfold setup_assignments_model
            rw [hdoc]
            rfl
          rw [hmodel]
          exact ⟨rfl, rfl, rfl, rfl⟩
      | ok d =>
          have hmodel : setup_assignments_model (Except.ok d) look_idx st =
              assign_looks_loop look_idx 0
                { st with mtlXLook := look_idx, mtlx_doc := some d }
                d.looks := by
            unfold setup_assignments_model
            rw [hdoc]
            rfl
          obtain ⟨P, B, hPB⟩ := assign_looks_loop_shape d.looks look_idx 0
            { st with mtlXLook := look_idx, mtlx_doc := some d }
          have hbs := assign_looks_loop_box_shape d.looks look_idx 0
            { st with mtlXLook := look_idx, mtlx_doc := some d }
          rw [hPB] at hbs
          rw [hmodel, hPB]
          exact ⟨rfl, rfl, rfl, hbs⟩

/-- **C9, counterexample.** The claim states that a look-index-only change
re-runs *both* the material-assignment phase and the visibility-attribute
phase.  On a node built for look 0 of a document whose look 0 has no
visibilities and whose look 1 has one, setting `mtlXLook` to 1 leaves the
attribute children empty, while actually re-running the visibility phase
for look 1 would create one attribute node: `plug_set` only calls
`setup_assignments`. -/
theorem claim_C9_counterexample :
    (plug_set_model (Except.error "e") "mtlXLook" cxStC9).attrs = [] ∧
    ¬(setup_attributes_model (Except.error "e") 1 cxStC9).attrs = [] := by
  exact ⟨by decide, by decide⟩

/-- **C9, amended.** A change of the look index alone re-runs only the
material-assignment phase (`plug_set` on `mtlXLook` is exactly
`setup_assignments` at the plug's new value); the visibility-attribute
phase is not re-run — the attribute and filter children and the host `out`
connection persist unchanged — and all generated MaterialBoxes persist
(same boxes, same names, same chaining; only their path-filter paths lists
are rewritten for the new look). -/
theorem claim_C9_amended (read : ReadResult) (st : NodeState) :
    plug_set_model read "mtlXLook" st =
      setup_assignments_model read st.mtlXLook st ∧
    (plug_set_model read "mtlXLook" st).attrs = st.attrs ∧
    (plug_set_model read "mtlXLook" st).filters = st.filters ∧
    (plug_set_model read "mtlXLook" st).outSrc = st.outSrc ∧
    (plug_set_model read "mtlXLook" st).boxes.map boxShape =
      st.boxes.map boxShape := by
  have h0 : plug_set_model read "mtlXLook" st =
      setup_assignments_model read st.mtlXLook st := by
    unfold plug_set_model
    rw [if_neg (by decide), if_pos rfl]
  obtain ⟨a, b, c, d⟩ := setup_assignments_preserves read st.mtlXLook st
  rw [h0]
  exact ⟨rfl, a, b, c, d⟩

/-! ### Rebuild idempotence machinery -/

theorem assign_looks_loop_boxes_congr (looks : List Look) :
    ∀ (look_idx idx : Nat) (stX stY : NodeState), stX.boxes = stY.boxes →
    (assign_looks_loop look_idx idx stX looks).boxes =
      (assign_looks_loop look_idx idx stY looks).boxes := by
  induction looks with
  | nil =>
      intro _ _ stX stY h
      exact h
  | cons l rest ih =>
      intro look_idx idx stX stY h
      simp only [assign_looks_loop]
      by_cases hm : look_idx = idx
      · rw [if_pos hm, if_pos hm, foldl_assign_step_fields, foldl_assign_step_fields]
        apply ih
        show (l.materialAssigns.foldl assignBoxes
            (stX.boxes.map (fun b => { b with pathFilterPaths := [] }))) =
          (l.materialAssigns.foldl assignBoxes
            (stY.boxes.map (fun b => { b with pathFilterPaths := [] })))
        rw [h]
      · rw [if_neg hm, if_neg hm]
        apply ih
        exact h

theorem setup_attributes_pair (read : ReadResult) (stA stB : NodeState)
    (doc : Document)
    (hdA : stA.mtlx_doc = some doc) (hdB : stB.mtlx_doc = some doc)
    (hb : stA.boxes = stB.boxes) (ha : stA.attrs = stB.attrs)
    (hf : stA.filters = stB.filters) :
    (setup_attributes_model read 0 stA).attrs =
      (setup_attributes_model read 0 stB).attrs ∧
    (setup_attributes_model read 0 stA).filters =
      (setup_attributes_model read 0 stB).filters ∧
    (setup_attributes_model read 0 stA).boxes = stA.boxes ∧
    (setup_attributes_model read 0 stB).boxes = stB.boxes ∧
    (setup_attributes_model read 0 stA).status = stA.status ∧
    (setup_attributes_model read 0 stB).status = stB.status ∧
    ((setup_attributes_model read 0 stA).outSrc =
        (setup_attributes_model read 0 stB).outSrc ∨
      ((setup_attributes_model read 0 stA).outSrc = stA.outSrc ∧
       (setup_attributes_model read 0 stB).outSrc = stB.outSrc)) := by
  have hmA : setup_attributes_model read 0 stA =
      attr_looks_loop 0 0 { stA with mtlXLook := 0 } doc.looks := by
    unfold setup_attributes_model
    rw [hdA]
  have hmB : setup_attributes_model read 0 stB =
      attr_looks_loop 0 0 { stB with mtlXLook := 0 } doc.looks := by
    unfold setup_attributes_model
    rw [hdB]
  rw [hmA, hmB]
  cases hlooks : doc.looks with
  | nil =>
      refine ⟨ha, hf, rfl, rfl, rfl, rfl, Or.inr ⟨rfl, rfl⟩⟩
  | cons l rest =>
      have hgA := attr_looks_loop_get (l :: rest) 0 l 0
        { stA with mtlXLook := 0 } rfl
      have hgB := attr_looks_loop_get (l :: rest) 0 l 0
        { stB with mtlXLook := 0 } rfl
      rw [show (0 : Nat) + 0 = 0 by omega] at hgA hgB
      rw [hgA, hgB, visibilities_loop_char, visibilities_loop_char]
      by_cases hvz : l.visibilities = []
      · rw [if_neg (by simp [hvz]), if_neg (by simp [hvz])]
        refine ⟨?_, ?_, rfl, rfl, rfl, rfl, Or.inr ⟨rfl, rfl⟩⟩
        · show stA.attrs ++ expectedAttrs stA.boxes stA.attrs l.visibilities =
            stB.attrs ++ expectedAttrs stB.boxes stB.attrs l.visibilities
          rw [ha, hb]
        · show stA.filters ++ expectedFilters l.visibilities =
            stB.filters ++ expectedFilters l.visibilities
          rw [hf]
      · rw [if_pos hvz, if_pos hvz]
        refine ⟨?_, ?_, rfl, rfl, rfl, rfl, Or.inl ?_⟩
        · show stA.attrs ++ expectedAttrs stA.boxes stA.attrs l.visibilities =
            stB.attrs ++ expectedAttrs stB.boxes stB.attrs l.visibilities
          rw [ha, hb]
        · show stA.filters ++ expectedFilters l.visibilities =
            stB.filters ++ expectedFilters l.visibilities
          rw [hf]
        · show Src.attrOut
            ((stA.attrs ++ expectedAttrs stA.boxes stA.attrs l.visibilities).length
              - 1) =
            Src.attrOut
            ((stB.attrs ++ expectedAttrs stB.boxes stB.attrs l.visibilities).length
              - 1)
          rw [ha, hb]

theorem setup_assignments_records (read : ReadResult) (st : NodeState)
    (doc : Document) (hdoc : st.mtlx_doc = some doc) :
    ∃ P B, setup_assignments_model read 0 st =
      { st with mtlXLook := 0, presets := P, boxes := B } ∧
      B = (assign_looks_loop 0 0 { st with mtlXLook := 0 } doc.looks).boxes := by
  have hmodel : setup_assignments_model read 0 st =
      assign_looks_loop 0 0 { st with mtlXLook := 0 } doc.looks := by
    unfold setup_assignments_model
    rw [hdoc]
  obtain ⟨P, B, hPB⟩ := assign_looks_loop_shape doc.looks 0 0
    { st with mtlXLook := 0 }
  refine ⟨P, B, hmodel.trans hPB, ?_⟩
  rw [hPB]

theorem setup_attributes_keeps (read : ReadResult) (st : NodeState)
    (doc : Document) (hdoc : st.mtlx_doc = some doc) :
    (setup_attributes_model read 0 st).mtlx_doc = some doc ∧
    (setup_attributes_model read 0 st).applyMaterials = st.applyMaterials ∧
    (setup_attributes_model read 0 st).applyAssignments = st.applyAssignments ∧
    (setup_attributes_model read 0 st).applyAttributes = st.applyAttributes ∧
    (setup_attributes_model read 0 st).boxes = st.boxes := by
  have hmodel : setup_attributes_model read 0 st =
      attr_looks_loop 0 0 { st with mtlXLook := 0 } doc.looks := by
    unfold setup_attributes_model
    rw [hdoc]
  rw [hmodel]
  cases hlooks : doc.looks with
  | nil => exact ⟨hdoc, rfl, rfl, rfl, rfl⟩
  | cons l rest =>
      have hg := attr_looks_loop_get (l :: rest) 0 l 0
        { st with mtlXLook := 0 } rfl
      rw [show (0 : Nat) + 0 = 0 by omega] at hg
      rw [hg, visibilities_loop_char]
      by_cases hvz : l.visibilities = []
      · rw [if_neg (by simp [hvz])]
        exact ⟨hdoc, rfl, rfl, rfl, rfl⟩
      · rw [if_pos hvz]
        exact ⟨hdoc, rfl, rfl, rfl, rfl⟩

theorem load_mtlx_pair (read : ReadResult) (stA stB : NodeState) (doc : Document)
    (hdA : stA.mtlx_doc = some doc) (hdB : stB.mtlx_doc = some doc)
    (hbA : stA.boxes = []) (hbB : stB.boxes = [])
    (ha : stA.attrs = stB.attrs) (hf : stA.filters = stB.filters)
    (hm : stA.applyMaterials = stB.applyMaterials)
    (has : stA.applyAssignments = stB.applyAssignments)
    (hat : stA.applyAttributes = stB.applyAttributes) :
    (load_mtlx_model read stA).boxes = (load_mtlx_model read stB).boxes ∧
    (load_mtlx_model read stA).attrs = (load_mtlx_model read stB).attrs ∧
    (load_mtlx_model read stA).filters = (load_mtlx_model read stB).filters ∧
    (load_mtlx_model read stA).status = (load_mtlx_model read stB).status ∧
    ((load_mtlx_model read stA).outSrc = (load_mtlx_model read stB).outSrc ∨
     ((load_mtlx_model read stA).outSrc = stA.outSrc ∧
      (load_mtlx_model read stB).outSrc = stB.outSrc)) := by
  have hloadA : load_mtlx_model read stA =
      (let st1 := if stA.applyMaterials then setup_materials_model doc stA else stA
       let st2 := if st1.applyAssignments then setup_assignments_model read 0 st1
         else st1
       let st3 := if st2.applyAttributes then setup_attributes_model read 0 st2
         else st2
       { st3 with status := loadedStatus st3.boxes.length }) := by
    unfold load_mtlx_model
    rw [hdA]
  have hloadB : load_mtlx_model read stB =
      (let st1 := if stB.applyMaterials then setup_materials_model doc stB else stB
       let st2 := if st1.applyAssignments then setup_assignments_model read 0 st1
         else st1
       let st3 := if st2.applyAttributes then setup_attributes_model read 0 st2
         else st2
       { st3 with status := loadedStatus st3.boxes.length }) := by
    unfold load_mtlx_model
    rw [hdB]
  -- stage 1: materials
  obtain ⟨h1boxes, h1attrsA, h1attrsB, h1filtA, h1filtB, h1docA, h1docB,
      h1mA, h1mB, h1asA, h1asB, h1atA, h1atB, h1statusA, h1statusB, h1out⟩ :
      (let st1A := if stA.applyMaterials then setup_materials_model doc stA
        else stA
       let st1B := if stB.applyMaterials then setup_materials_model doc stB
        else stB
       st1A.boxes = st1B.boxes ∧
       st1A.attrs = stA.attrs ∧ st1B.attrs = stB.attrs ∧
       st1A.filters = stA.filters ∧ st1B.filters = stB.filters ∧
       st1A.mtlx_doc = some doc ∧ st1B.mtlx_doc = some doc ∧
       st1A.applyMaterials = stA.applyMaterials ∧
       st1B.applyMaterials = stB.applyMaterials ∧
       st1A.applyAssignments = stA.applyAssignments ∧
       st1B.applyAssignments = stB.applyAssignments ∧
       st1A.applyAttributes = stA.applyAttributes ∧
       st1B.applyAttributes = stB.applyAttributes ∧
       st1A.status = stA.status ∧ st1B.status = stB.status ∧
       (st1A.outSrc = st1B.outSrc ∨
        (st1A.outSrc = stA.outSrc ∧ st1B.outSrc = stB.outSrc))) := by
    by_cases hap : stA.applyMaterials = true
    · have hbp : stB.applyMaterials = true := by rw [← hm]; exact hap
      rw [if_pos hap, if_pos hbp,
        setup_materials_char doc stA hbA, setup_materials_char doc stB hbB]
      refine ⟨rfl, rfl, rfl, rfl, rfl, hdA, hdB, rfl, rfl, rfl, rfl, rfl, rfl,
        rfl, rfl, ?_⟩
      by_cases hc : 2 ≤ refCount doc.materials
      · exact Or.inl (by rw [if_pos hc, if_pos hc])
      · exact Or.inr ⟨by rw [if_neg hc], by rw [if_neg hc]⟩
    · have hbp : ¬stB.applyMaterials = true := by rw [← hm]; exact hap
      rw [if_neg hap, if_neg hbp]
      exact ⟨hbA.trans hbB.symm, rfl, rfl, rfl, rfl, hdA, hdB, rfl, rfl, rfl,
        rfl, rfl, rfl, rfl, rfl, Or.inr ⟨rfl, rfl⟩⟩
  -- stage 2: assignments
  obtain ⟨h2boxes, h2attrsA, h2attrsB, h2filtA, h2filtB, h2docA, h2docB,
      h2atA, h2atB, h2statusA, h2statusB, h2outA, h2outB⟩ :
      (let st1A := if stA.applyMaterials then setup_materials_model doc stA
        else stA
       let st1B := if stB.applyMaterials then setup_materials_model doc stB
        else stB
       let st2A := if st1A.applyAssignments then
         setup_assignments_model read 0 st1A else st1A
       let st2B := if st1B.applyAssignments then
         setup_assignments_model read 0 st1B else st1B
       st2A.boxes = st2B.boxes ∧
       st2A.attrs = st1A.attrs ∧ st2B.attrs = st1B.attrs ∧
       st2A.filters = st1A.filters ∧ st2B.filters = st1B.filters ∧
       st2A.mtlx_doc = some doc ∧ st2B.mtlx_doc = some doc ∧
       st2A.applyAttributes = st1A.applyAttributes ∧
       st2B.applyAttributes = st1B.applyAttributes ∧
       st2A.status = st1A.status ∧ st2B.status = st1B.status ∧
       st2A.outSrc = st1A.outSrc ∧ st2B.outSrc = st1B.outSrc) := by
    intro st1A st1B
    by_cases hap : st1A.applyAssignments = true
    · have hbp : st1B.applyAssignments = true := by
        rw [h1asB, ← has, ← h1asA]
        exact hap
      rw [if_pos hap, if_pos hbp]
      obtain ⟨PA, BA, hrecA, hBA⟩ :=
        setup_assignments_records read st1A doc h1docA
      obtain ⟨PB, BB, hrecB, hBB⟩ :=
        setup_assignments_records read st1B doc h1docB
      rw [hrecA, hrecB]
      refine ⟨?_, rfl, rfl, rfl, rfl, h1docA, h1docB, rfl, rfl, rfl, rfl,
        rfl, rfl⟩
      show BA = BB
      rw [hBA, hBB]
      apply assign_looks_loop_boxes_congr
      show st1A.boxes = st1B.boxes
      exact h1boxes
    · have hbp : ¬st1B.applyAssignments = true := by
        rw [h1asB, ← has, ← h1asA]
        exact hap
      rw [if_neg hap, if_neg hbp]
      exact ⟨h1boxes, rfl, rfl, rfl, rfl, h1docA, h1docB, rfl, rfl, rfl, rfl,
        rfl, rfl⟩
  -- stage 3: attributes
  obtain ⟨h3boxesA, h3boxesB, h3attrs, h3filt, h3statusA, h3statusB, h3out⟩ :
      (let st1A := if stA.applyMaterials then setup_materials_model doc stA
        else stA
       let st1B := if stB.applyMaterials then setup_materials_model doc stB
        else stB
       let st2A := if st1A.applyAssignments then
         setup_assignments_model read 0 st1A else st1A
       let st2B := if st1B.applyAssignments then
         setup_assignments_model read 0 st1B else st1B
       let st3A := if st2A.applyAttributes then
         setup_attributes_model read 0 st2A else st2A
       let st3B := if st2B.applyAttributes then
         setup_attributes_model read 0 st2B else st2B
       st3A.boxes = st2A.boxes ∧ st3B.boxes = st2B.boxes ∧
       st3A.attrs = st3B.attrs ∧ st3A.filters = st3B.filters ∧
       st3A.status = st2A.status ∧ st3B.status = st2B.status ∧
       (st3A.outSrc = st3B.outSrc ∨
        (st3A.outSrc = st2A.outSrc ∧ st3B.outSrc = st2B.outSrc))) := by
    intro st1A st1B st2A st2B
    have hattrs2 : st2A.attrs = st2B.attrs := by
      rw [h2attrsA, h2attrsB, h1attrsA, h1attrsB, ha]
    have hfilt2 : st2A.filters = st2B.filters := by
      rw [h2filtA, h2filtB, h1filtA, h1filtB, hf]
    by_cases hap : st2A.applyAttributes = true
    · have hbp : st2B.applyAttributes = true := by
        rw [h2atB, h1atB, ← hat, ← h1atA, ← h2atA]
        exact hap
      rw [if_pos hap, if_pos hbp]
      obtain ⟨p1, p2, p3, p4, p5, p6, p7⟩ :=
        setup_attributes_pair read st2A st2B doc h2docA h2docB h2boxes
          hattrs2 hfilt2
      exact ⟨p3, p4, p1, p2, p5, p6, p7⟩
    · have hbp : ¬st2B.applyAttributes = true := by
        rw [h2atB, h1atB, ← hat, ← h1atA, ← h2atA]
        exact hap
      rw [if_neg hap, if_neg hbp]
      exact ⟨rfl, rfl, hattrs2, hfilt2, rfl, rfl, Or.inr ⟨rfl, rfl⟩⟩
  -- conclusion
  rw [hloadA, hloadB]
  refine ⟨?_, ?_, ?_, ?_, ?_⟩
  · exact h3boxesA.trans (h2boxes.trans h3boxesB.symm)
  · exact h3attrs
  · exact h3filt
  · exact congrArg loadedStatus
      (congrArg List.length (h3boxesA.trans (h2boxes.trans h3boxesB.symm)))
  · rcases h3out with h | ⟨hA3, hB3⟩
    · exact Or.inl h
    · rcases h1out with h | ⟨hA1, hB1⟩
      · exact Or.inl (by rw [hA3, hB3, h2outA, h2outB, h])
      · exact Or.inr ⟨by rw [hA3, h2outA, hA1], by rw [hB3, h2outB, hB1]⟩

theorem load_mtlx_keeps (read : ReadResult) (st : NodeState) (doc : Document)
    (hdoc : st.mtlx_doc = some doc) (hb : st.boxes = []) :
    (load_mtlx_model read st).mtlx_doc = some doc ∧
    (load_mtlx_model read st).applyMaterials = st.applyMaterials ∧
    (load_mtlx_model read st).applyAssignments = st.applyAssignments ∧
    (load_mtlx_model read st).applyAttributes = st.applyAttributes := by
  have hload : load_mtlx_model read st =
      (let st1 := if st.applyMaterials then setup_materials_model doc st else st
       let st2 := if st1.applyAssignments then setup_assignments_model read 0 st1
         else st1
       let st3 := if st2.applyAttributes then setup_attributes_model read 0 st2
         else st2
       { st3 with status := loadedStatus st3.boxes.length }) := by
    unfold load_mtlx_model
    rw [hdoc]
  obtain ⟨g1doc, g1m, g1as, g1at⟩ :
      (let st1 := if st.applyMaterials then setup_materials_model doc st else st
       st1.mtlx_doc = some doc ∧ st1.applyMaterials = st.applyMaterials ∧
       st1.applyAssignments = st.applyAssignments ∧
       st1.applyAttributes = st.applyAttributes) := by
    by_cases hap : st.applyMaterials = true
    · rw [if_pos hap, setup_materials_char doc st hb]
      exact ⟨hdoc, rfl, rfl, rfl⟩
    · rw [if_neg hap]
      exact ⟨hdoc, rfl, rfl, rfl⟩
  obtain ⟨g2doc, g2m, g2as, g2at⟩ :
      (let st1 := if st.applyMaterials then setup_materials_model doc st else st
       let st2 := if st1.applyAssignments then setup_assignments_model read 0 st1
         else st1
       st2.mtlx_doc = some doc ∧ st2.applyMaterials = st1.applyMaterials ∧
       st2.applyAssignments = st1.applyAssignments ∧
       st2.applyAttributes = st1.applyAttributes) := by
    intro st1
    by_cases hap : st1.applyAssignments = true
    · rw [if_pos hap]
      obtain ⟨P, B, hrec, _⟩ := setup_assignments_records read st1 doc g1doc
      rw [hrec]
      exact ⟨g1doc, rfl, rfl, rfl⟩
    · rw [if_neg hap]
      exact ⟨g1doc, rfl, rfl, rfl⟩
  obtain ⟨g3doc, g3m, g3as, g3at⟩ :
      (let st1 := if st.applyMaterials then setup_materials_model doc st else st
       let st2 := if st1.applyAssignments then setup_assignments_model read 0 st1
         else st1
       let st3 := if st2.applyAttributes then setup_attributes_model read 0 st2
         else st2
       st3.mtlx_doc = some doc ∧ st3.applyMaterials = st2.applyMaterials ∧
       st3.applyAssignments = st2.applyAssignments ∧
       st3.applyAttributes = st2.applyAttributes) := by
    intro st1 st2
    by_cases hap : st2.applyAttributes = true
    · rw [if_pos hap]
      have hmodel : setup_attributes_model read 0 st2 =
          attr_looks_loop 0 0 { st2 with mtlXLook := 0 } doc.looks := by
        unfold setup_attributes_model
        rw [g2doc]
      rw [hmodel]
      cases hlooks : doc.looks with
      | nil => exact ⟨g2doc, rfl, rfl, rfl⟩
      | cons l rest =>
          have hg := attr_looks_loop_get (l :: rest) 0 l 0
            { st2 with mtlXLook := 0 } rfl
          rw [show (0 : Nat) + 0 = 0 by omega] at hg
          rw [hg, visibilities_loop_char]
          by_cases hvz : l.visibilities = []
          · rw [if_neg (by simp [hvz])]
            exact ⟨g2doc, rfl, rfl, rfl⟩
          · rw [if_pos hvz]
            exact ⟨g2doc, rfl, rfl, rfl⟩
    · rw [if_neg hap]
      exact ⟨g2doc, rfl, rfl, rfl⟩
  rw [hload]
  exact ⟨g3doc, g3m.trans (g2m.trans g1m), g3as.trans (g2as.trans g1as),
    g3at.trans (g2at.trans g1at)⟩

/-- **C8.** Rebuild is idempotent: performing the teardown-plus-build
sequence (`clear_existing_data` followed by `load_mtlx`, as the `hash`
method does on a path change) twice in succession on an unchanged document
yields the same generated graph as a single rebuild — the same box,
attribute and filter children, the same host `out` connection and the same
status — because `clear_existing_data` removes every child of all three
generated categories before any rebuild begins, so no duplicates
accumulate. -/
theorem claim_C8_confirmed (read : ReadResult) (st : NodeState) :
    (rebuild_model read (rebuild_model read st)).boxes =
      (rebuild_model read st).boxes ∧
    (rebuild_model read (rebuild_model read st)).attrs =
      (rebuild_model read st).attrs ∧
    (rebuild_model read (rebuild_model read st)).filters =
      (rebuild_model read st).filters ∧
    (rebuild_model read (rebuild_model read st)).outSrc =
      (rebuild_model read st).outSrc ∧
    (rebuild_model read (rebuild_model read st)).status =
      (rebuild_model read st).status := by
  cases hdoc : st.mtlx_doc with
  | none =>
      have h1 : rebuild_model read st = clear_existing_data_model st := by
        unfold rebuild_model load_mtlx_model clear_existing_data_model
        rw [hdoc]
      have h2 : rebuild_model read (rebuild_model read st) =
          clear_existing_data_model (rebuild_model read st) := by
        have hd1 : (rebuild_model read st).mtlx_doc = none := by
          rw [h1]
          exact hdoc
        show load_mtlx_model read
          (clear_existing_data_model (rebuild_model read st)) =
          clear_existing_data_model (rebuild_model read st)
        generalize rebuild_model read st = s1 at hd1 ⊢
        unfold load_mtlx_model
        first
        | rw [show (clear_existing_data_model s1).mtlx_doc = none from hd1]
        | rw [hd1]
      rw [h2, h1]
      exact ⟨rfl, rfl, rfl, rfl, rfl⟩
  | some doc =>
      have hdc : (clear_existing_data_model st).mtlx_doc = some doc := hdoc
      obtain ⟨k1, k2, k3, k4⟩ :=
        load_mtlx_keeps read (clear_existing_data_model st) doc hdc rfl
      obtain ⟨c1, c2, c3, c4, c5⟩ :=
        load_mtlx_pair read (clear_existing_data_model st)
          (clear_existing_data_model (rebuild_model read st)) doc
          hdc k1 rfl rfl rfl rfl k2.symm k3.symm k4.symm
      refine ⟨c1.symm, c2.symm, c3.symm, ?_, c4.symm⟩
      rcases c5 with h | ⟨hA, hB⟩
      · exact h.symm
      · exact hB

end MtlXBox
